import Mathlib

/-!
Verification development for the SVGToolpathReader geometric flattening and
path-interpretation engine (src/Parser.py).

Modelling conventions (shallow embedding):
* Python floats are modelled by rationals (ℚ); the transcendental primitives
  of Python's `math` module (`sqrt`, `sin`, `cos`, `acos`, `tan`, `pi`) are
  abstracted into a `FloatOps` record of functions, since no claim depends on
  their numeric values.  Where the source compares squared distances directly
  (as it does in all flattening loops) the embedding does the same.
* Python `while` loops that are not structurally bounded take an explicit
  fuel argument and return `Option`; `none` models a run that would still be
  looping (or a raised exception, where noted).
* Generators are modelled as eagerly produced lists of commands together with
  explicit threading of the parser's mutable state (`PState`), which is
  equivalent to the source's lazy generators under full consumption.
* Python strings are modelled as `String` / `List Char`; `\d` and case
  mapping are modelled as ASCII, which agrees with Python on the attribute
  grammar handled here.
-/

/-- A produced motion command: `TravelCommand` or `ExtrudeCommand` of the
source, in output coordinates. -/
inductive Cmd where
  | travel (x y : ℚ)
  | extrude (x y w : ℚ)
deriving DecidableEq, Repr

/-- A 3x3 matrix with rational entries, modelling the numpy 3x3 arrays used
for 2-D affine transformations. -/
structure Mat3 where
  m00 : ℚ
  m01 : ℚ
  m02 : ℚ
  m10 : ℚ
  m11 : ℚ
  m12 : ℚ
  m20 : ℚ
  m21 : ℚ
  m22 : ℚ
deriving DecidableEq, Repr

/-- `numpy.identity(3)`. -/
def idMat3 : Mat3 := ⟨1, 0, 0, 0, 1, 0, 0, 0, 1⟩

/-- `numpy.matmul` for 3x3 matrices. -/
def matMul (a b : Mat3) : Mat3 :=
  ⟨a.m00 * b.m00 + a.m01 * b.m10 + a.m02 * b.m20,
   a.m00 * b.m01 + a.m01 * b.m11 + a.m02 * b.m21,
   a.m00 * b.m02 + a.m01 * b.m12 + a.m02 * b.m22,
   a.m10 * b.m00 + a.m11 * b.m10 + a.m12 * b.m20,
   a.m10 * b.m01 + a.m11 * b.m11 + a.m12 * b.m21,
   a.m10 * b.m02 + a.m11 * b.m12 + a.m12 * b.m22,
   a.m20 * b.m00 + a.m21 * b.m10 + a.m22 * b.m20,
   a.m20 * b.m01 + a.m21 * b.m11 + a.m22 * b.m21,
   a.m20 * b.m02 + a.m21 * b.m12 + a.m22 * b.m22⟩

/-- `Parser.apply_transformation`: multiply the matrix with the column vector
`(x, y, 1)` and return the first two coordinates. -/
def applyT (t : Mat3) (x y : ℚ) : ℚ × ℚ :=
  (t.m00 * x + t.m01 * y + t.m02, t.m10 * x + t.m11 * y + t.m12)

/-- The floating-point primitives of Python's `math` module, abstracted as
unknown rational functions (see the module docstring). -/
structure FloatOps where
  fsqrt : ℚ → ℚ
  fsin : ℚ → ℚ
  fcos : ℚ → ℚ
  facos : ℚ → ℚ
  ftan : ℚ → ℚ
  fpi : ℚ

/-- The mutable numeric state of a `Parser` instance: device configuration,
the current viewport scope and the current dash state. -/
structure PState where
  resolution : ℚ
  viewport_x : ℚ
  viewport_y : ℚ
  viewport_w : ℚ
  viewport_h : ℚ
  image_w : ℚ
  image_h : ℚ
  unit_w : ℚ
  unit_h : ℚ
  dasharray : List ℚ
  dasharray_offset : ℚ
  dasharray_length : ℚ
deriving DecidableEq, Repr

/-- Whitespace test modelling Python's `str.split()` / `str.strip()`
delimiters on the ASCII range. -/
def isWs (c : Char) : Bool :=
  c = ' ' ∨ c = '\t' ∨ c = '\n' ∨ c = '\r' ∨ c = '\x0b' ∨ c = '\x0c'

/-- Longest digit run at the head of the list, and the remainder. -/
def spanDigits : List Char → List Char × List Char
  | [] => ([], [])
  | c :: rest =>
    if c.isDigit then
      let (d, r) := spanDigits rest
      (c :: d, r)
    else ([], c :: rest)

/-- Drop leading whitespace. -/
def dropWsHead : List Char → List Char
  | [] => []
  | c :: rest => if isWs c then dropWsHead rest else c :: rest

/-- Python `str.strip()`. -/
def stripChars (cs : List Char) : List Char :=
  (dropWsHead ((dropWsHead cs.reverse)).reverse)

/-- Python `str.lower()` on the ASCII range. -/
def lowerChars (cs : List Char) : List Char :=
  cs.map Char.toLower

/-- Python `str.split()` (split on whitespace runs, dropping empty parts). -/
def splitWsChars : List Char → List (List Char)
  | [] => []
  | c :: rest =>
    if isWs c then splitWsChars rest
    else
      match splitWsChars rest with
      | [] => [[c]]
      | w :: ws =>
        match rest with
        | [] => [[c]]
        | r :: _ => if isWs r then [c] :: w :: ws else (c :: w) :: ws

/-- Python `str.split(sep)` for a one-character separator (keeps empty
parts; the result is never empty). -/
def splitCharOn (sep : Char) : List Char → List (List Char)
  | [] => [[]]
  | c :: rest =>
    let r := splitCharOn sep rest
    if c = sep then [] :: r
    else
      match r with
      | [] => [[c]]
      | w :: ws => (c :: w) :: ws

/-- Python `str.replace(old, new)` for a one-character pattern. -/
def replaceChar (old : Char) (new : List Char) : List Char → List Char
  | [] => []
  | c :: rest =>
    if c = old then new ++ replaceChar old new rest
    else c :: replaceChar old new rest

/-- Python `str.replace(old, new)` for a two-character pattern
(non-overlapping, left to right). -/
def replacePair (o1 o2 : Char) (new : List Char) : List Char → List Char
  | [] => []
  | [c] => [c]
  | c1 :: c2 :: rest =>
    if c1 = o1 ∧ c2 = o2 then new ++ replacePair o1 o2 new rest
    else c1 :: replacePair o1 o2 new (c2 :: rest)

/-- Does the list contain the two-character pattern? -/
def containsPair (o1 o2 : Char) : List Char → Bool
  | [] => false
  | [_] => false
  | c1 :: c2 :: rest => (c1 = o1 ∧ c2 = o2) ∨ containsPair o1 o2 (c2 :: rest)

/-- List-prefix test for strings-as-char-lists. -/
def headIs : List Char → List Char → Bool
  | [], _ => true
  | _ :: _, [] => false
  | p :: ps, c :: cs => p = c ∧ headIs ps cs

/-- Numeric value of a digit run. -/
def digitsToNat (ds : List Char) : ℕ :=
  ds.foldl (fun a c => a * 10 + (c.toNat - '0'.toNat)) 0

/-- Greedy match of the source's number pattern (a sign, an optional integer
part, an optional dot with a mandatory fraction digit, an optional
exponent) at the head of the input, mirroring the backtracking-greedy
semantics of `re.match` on that pattern.  Returns the matched characters and
the remainder. -/
def matchNumber (cs : List Char) : Option (List Char × List Char) :=
  let signAndRest : List Char × List Char :=
    match cs with
    | c :: rest => if c = '+' ∨ c = '-' then ([c], rest) else ([], cs)
    | [] => ([], [])
  let sign := signAndRest.1
  let cs1 := signAndRest.2
  let (d1, cs2) := spanDigits cs1
  let mant : Option (List Char × List Char) :=
    match cs2 with
    | '.' :: cs3 =>
      let (d2, cs4) := spanDigits cs3
      if d2 ≠ [] then some (d1 ++ '.' :: d2, cs4)
      else if d1 ≠ [] then some (d1, cs2) else none
    | _ => if d1 ≠ [] then some (d1, cs2) else none
  match mant with
  | none => none
  | some (m, cs5) =>
    match cs5 with
    | e :: cs6 =>
      if e = 'e' ∨ e = 'E' then
        let esignAndRest : List Char × List Char :=
          match cs6 with
          | c :: rest => if c = '+' ∨ c = '-' then ([c], rest) else ([], cs6)
          | [] => ([], [])
        let (ed, cs8) := spanDigits esignAndRest.2
        if ed ≠ [] then some (sign ++ m ++ e :: (esignAndRest.1 ++ ed), cs8)
        else some (sign ++ m, cs5)
      else some (sign ++ m, cs5)
    | [] => some (sign ++ m, [])

/-- Rational value of a matched number (what Python's `float` returns on the
text matched by `matchNumber`). -/
def ratOfNumChars (cs : List Char) : ℚ :=
  let sgnAndRest : ℚ × List Char :=
    match cs with
    | '+' :: r => (1, r)
    | '-' :: r => (-1, r)
    | _ => (1, cs)
  let (ip, cs1) := spanDigits sgnAndRest.2
  let fracAndRest : List Char × List Char :=
    match cs1 with
    | '.' :: r => spanDigits r
    | _ => ([], cs1)
  let fp := fracAndRest.1
  let cs2 := fracAndRest.2
  let ex : ℤ :=
    match cs2 with
    | e :: r =>
      if e = 'e' ∨ e = 'E' then
        match r with
        | '-' :: r2 => -(digitsToNat (spanDigits r2).1 : ℤ)
        | '+' :: r2 => (digitsToNat (spanDigits r2).1 : ℤ)
        | _ => (digitsToNat (spanDigits r).1 : ℤ)
      else 0
    | [] => 0
  sgnAndRest.1 * ((digitsToNat ip : ℚ) + (digitsToNat fp : ℚ) / (10 : ℚ) ^ fp.length)
    * (10 : ℚ) ^ ex

/-- Python's `float(s)` on a string: strips whitespace and requires the whole
remainder to be a float literal `sign? (digits (. digits*)? | . digits+)
exponent?`.  (`inf`, `nan` and digit underscores are not modelled; no
attribute grammar handled here produces them.) -/
def pyFloat? (s : String) : Option ℚ :=
  let cs := stripChars s.toList
  let sgnAndRest : ℚ × List Char :=
    match cs with
    | '+' :: r => (1, r)
    | '-' :: r => (-1, r)
    | _ => (1, cs)
  let (ip, cs1) := spanDigits sgnAndRest.2
  let mant : Option (ℚ × List Char) :=
    match cs1 with
    | '.' :: r =>
      let (fp, cs2) := spanDigits r
      if ip = [] ∧ fp = [] then none
      else some ((digitsToNat ip : ℚ) + (digitsToNat fp : ℚ) / (10 : ℚ) ^ fp.length, cs2)
    | _ => if ip = [] then none else some ((digitsToNat ip : ℚ), cs1)
  match mant with
  | none => none
  | some (m, cs3) =>
    match cs3 with
    | [] => some (sgnAndRest.1 * m)
    | e :: r =>
      if e = 'e' ∨ e = 'E' then
        let esignAndRest : ℤ × List Char :=
          match r with
          | '-' :: r2 => (-1, r2)
          | '+' :: r2 => (1, r2)
          | _ => (1, r)
        let (ed, cs4) := spanDigits esignAndRest.2
        if ed = [] ∨ cs4 ≠ [] then none
        else some (sgnAndRest.1 * m * (10 : ℚ) ^ (esignAndRest.1 * (digitsToNat ed : ℤ)))
      else none

/-- The unit dispatch of `Parser.convert_length` (the if/elif chain on the
lower-cased unit text, source lines 198-233). -/
def convertLengthUnit (st : PState) (number : ℚ) (unit : String) (vertical : Bool)
    (parent_size : Option ℚ) : ℚ :=
  if unit = "mm" then number
  else if unit = "px" then number / 96 * 25.4
  else if unit = "cm" then number * 10
  else if unit = "q" then number / 4
  else if unit = "in" then number * 25.4
  else if unit = "pc" then number * 12 / 72 * 25.4
  else if unit = "pt" then number / 72 * 25.4
  else if unit = "%" then
    let ps := parent_size.getD (if vertical then st.image_h else st.image_w)
    number / 100 * ps
  else if unit = "vh" ∨ unit = "vb" then number / 100 * st.image_w
  else if unit = "vw" ∨ unit = "vi" then number / 100 * st.image_h
  else if unit = "vmin" then number / 100 * min st.image_w st.image_h
  else if unit = "vmax" then number / 100 * max st.image_w st.image_h
  else if vertical then number * st.unit_h
  else number * st.unit_w

/-- `Parser.convert_length`: parse the leading number, take the rest
(stripped, lower-cased) as the unit, dispatch on the unit. -/
def convert_length (st : PState) (dimension : String) (vertical : Bool := false)
    (parent_size : Option ℚ := none) : ℚ :=
  match matchNumber dimension.toList with
  | none => 0
  | some (numChars, rest) =>
    convertLengthUnit st (ratOfNumChars numChars)
      (String.mk (lowerChars (stripChars rest))) vertical parent_size

/-- `Parser.convert_dasharray`: resolve each whitespace/comma-separated
length, drop negative ones, double the list (and the total) when its length
is odd.  Updates the dash state of `PState`. -/
def convert_dasharray (st : PState) (dasharray : String) : PState :=
  let length_list := (splitWsChars (replaceChar ',' [' '] dasharray.toList)).map String.mk
  let step := length_list.foldl
    (fun (acc : List ℚ × ℚ) len =>
      let length_mm := convert_length st len
      if length_mm < 0 then acc
      else (acc.1 ++ [length_mm], acc.2 + length_mm))
    ([], 0)
  if step.1.length % 2 = 1 then
    { st with dasharray := step.1 ++ step.1, dasharray_length := step.2 * 2 }
  else
    { st with dasharray := step.1, dasharray_length := step.2 }

/-- The list of successfully resolved dash lengths of a `stroke-dasharray`
value: each item resolved by `convert_length`, negative results dropped. -/
def resolvedDashList (st : PState) (dasharray : String) : List ℚ :=
  (((splitWsChars (replaceChar ',' [' '] dasharray.toList)).map String.mk).map
    (fun len => convert_length st len)).filter (fun q => decide (0 ≤ q))

/-- A concrete parser state with viewport units equal to 1 (used for
concrete evaluations). -/
def stOne : PState :=
  { resolution := 1, viewport_x := 0, viewport_y := 0, viewport_w := 100, viewport_h := 100,
    image_w := 100, image_h := 100, unit_w := 1, unit_h := 1,
    dasharray := [], dasharray_offset := 0, dasharray_length := 0 }

theorem convert_dasharray_fold (st : PState) (l : List String) (acc : List ℚ × ℚ) :
    l.foldl (fun (acc : List ℚ × ℚ) len =>
        let length_mm := convert_length st len
        if length_mm < 0 then acc
        else (acc.1 ++ [length_mm], acc.2 + length_mm)) acc =
      (acc.1 ++ ((l.map (fun len => convert_length st len)).filter (fun q => decide (0 ≤ q))),
       acc.2 + ((l.map (fun len => convert_length st len)).filter (fun q => decide (0 ≤ q))).sum) := by
  induction l generalizing acc with
  | nil => simp
  | cons a l ih =>
    simp only [List.foldl_cons, List.map_cons, List.filter_cons]
    by_cases h : convert_length st a < 0
    · rw [if_pos h]
      have : decide (0 ≤ convert_length st a) = false := by
        simpa using not_le.mpr h
      rw [this]
      simpa using ih acc
    · rw [if_neg h]
      have : decide (0 ≤ convert_length st a) = true := by
        simpa using not_lt.mp h
      rw [this]
      rw [ih]
      simp [add_assoc]

theorem convert_dasharray_eq (st : PState) (s : String) :
    convert_dasharray st s =
      (let l := resolvedDashList st s
       if l.length % 2 = 1 then
         { st with dasharray := l ++ l, dasharray_length := l.sum * 2 }
       else
         { st with dasharray := l, dasharray_length := l.sum }) := by
  simp only [convert_dasharray, resolvedDashList]
  rw [convert_dasharray_fold]
  simp

/-- Claim C5: a stroke-dasharray whose successfully resolved length list has
odd length is stored doubled (the list repeated twice, the total length
twice the sum); an even-length list and its sum are stored unchanged.  In
particular "2,3,4" is stored as [2,3,4,2,3,4] with total length 18. -/
theorem c5_dasharray_doubling :
    (∀ (st : PState) (s : String),
      (convert_dasharray st s).dasharray =
        (if (resolvedDashList st s).length % 2 = 1
         then resolvedDashList st s ++ resolvedDashList st s
         else resolvedDashList st s) ∧
      (convert_dasharray st s).dasharray_length =
        (if (resolvedDashList st s).length % 2 = 1
         then 2 * (resolvedDashList st s).sum
         else (resolvedDashList st s).sum)) ∧
    (convert_dasharray stOne "2,3,4").dasharray = [2, 3, 4, 2, 3, 4] ∧
    (convert_dasharray stOne "2,3,4").dasharray_length = 18 := by
  refine ⟨fun st s => ?_, by with_unfolding_all decide, by with_unfolding_all decide⟩
  rw [convert_dasharray_eq]
  by_cases h : (resolvedDashList st s).length % 2 = 1
  · simp [h, mul_comm]
  · simp [h]

/-- Claim C4 (counterexample): the stroke-dasharray "0" resolves to the
stored pattern [0, 0]; zero-length entries are not dropped, so not every
entry of the stored pattern is strictly positive. -/
theorem c4_counterexample :
    (convert_dasharray stOne "0").dasharray = [0, 0] ∧
    ¬ (∀ x ∈ (convert_dasharray stOne "0").dasharray, 0 < x) := by
  constructor
  · with_unfolding_all decide
  · intro h
    have := h 0 (by with_unfolding_all decide)
    exact absurd this (by with_unfolding_all decide)

/-- Claim C4 (amended): negative resolved lengths are dropped when a
stroke-dasharray is parsed, so every entry of the stored dash pattern is
nonnegative (zero-length entries are kept). -/
theorem c4_nonnegative_dasharray (st : PState) (s : String) :
    ∀ x ∈ (convert_dasharray st s).dasharray, 0 ≤ x := by
  intro x hx
  rw [convert_dasharray_eq] at hx
  dsimp only at hx
  split at hx
  · dsimp only at hx
    rcases List.mem_append.mp hx with hm | hm <;>
    · have := List.of_mem_filter hm
      simpa using this
  · dsimp only at hx
    have := List.of_mem_filter hx
    simpa using this

theorem c4_witness :
    (0 : ℚ) ∈ (convert_dasharray stOne "0").dasharray ∧ (0 : ℚ) ≤ 0 :=
  ⟨by with_unfolding_all decide, c4_nonnegative_dasharray stOne "0" 0 (by with_unfolding_all decide)⟩

/-- A concrete parser state with image width 100 mm and image height 50 mm
(used to exhibit the vw/vh axis swap). -/
def stWide : PState :=
  { resolution := 1, viewport_x := 0, viewport_y := 0, viewport_w := 100, viewport_h := 50,
    image_w := 100, image_h := 50, unit_w := 1, unit_h := 1,
    dasharray := [], dasharray_offset := 0, dasharray_length := 0 }

/-- Claim C8 (counterexample): with image width 100 and image height 50, the
dimension "10vw" resolves to 5 (10% of the image HEIGHT), not to 10 (10% of
the image width as the claim states); and supplying parent_size = 200 leaves
the result at 5, not 20 (viewport units ignore parent_size). -/
theorem c8_counterexample :
    convert_length stWide "10vw" = 5 ∧
    convert_length stWide "10vw" false (some 200) = 5 ∧
    convert_length stWide "10vw" ≠ 10 ∧
    convert_length stWide "10vw" false (some 200) ≠ 20 := by
  refine ⟨by with_unfolding_all decide, by with_unfolding_all decide, by with_unfolding_all decide, by with_unfolding_all decide⟩

/-- Claim C8 (amended): `convert_length` resolves vw/vi as number/100 times
the image HEIGHT and vh/vb as number/100 times the image WIDTH (the axes are
swapped relative to the CSS meaning of the units), regardless of the
`vertical` flag and of `parent_size`; `parent_size`, when given, is used
only by the `%` unit. -/
theorem c8_viewport_units (st : PState) (n : ℚ) (vertical : Bool) (ps : Option ℚ) (p : ℚ) :
    convertLengthUnit st n "vw" vertical ps = n / 100 * st.image_h ∧
    convertLengthUnit st n "vi" vertical ps = n / 100 * st.image_h ∧
    convertLengthUnit st n "vh" vertical ps = n / 100 * st.image_w ∧
    convertLengthUnit st n "vb" vertical ps = n / 100 * st.image_w ∧
    convertLengthUnit st n "%" vertical (some p) = n / 100 * p := by
  refine ⟨?_, ?_, ?_, ?_, ?_⟩ <;> simp [convertLengthUnit]

/-- Map a Python-`float` parse over a list of argument texts; `none` models
the `ValueError` that `convert_transform` lets propagate. -/
def mapPyFloat : List (List Char) → Option (List ℚ)
  | [] => some []
  | v :: rest =>
    match pyFloat? (String.mk v), mapPyFloat rest with
    | some q, some qs => some (q :: qs)
    | _, _ => none

/-- The `while "  " in transform` collapsing loop of `convert_transform`
(fuel-bounded; the input length is always enough fuel because each
replacement shortens the text). -/
def collapseDoubleSpaces : ℕ → List Char → List Char
  | 0, cs => cs
  | n + 1, cs =>
    if containsPair ' ' ' ' cs then collapseDoubleSpaces n (replacePair ' ' ' ' [' '] cs)
    else cs

/-- The transform-function dispatch of `Parser.convert_transform` (source
lines 341-395): given the accumulated matrix, a lower-cased function name
and its parsed arguments, post-multiply the matching function matrix, or
leave the accumulator unchanged for a malformed call. -/
def applyTransformFn (ops : FloatOps) (t : Mat3) (name : String) (values : List ℚ) : Mat3 :=
  if name = "matrix" then
    if values.length ≠ 6 then t
    else matMul t ⟨values.getD 0 0, values.getD 2 0, values.getD 4 0,
                   values.getD 1 0, values.getD 3 0, values.getD 5 0, 0, 0, 1⟩
  else if name = "translate" then
    let values := if values.length = 1 then values ++ [0] else values
    if values.length ≠ 2 then t
    else matMul t ⟨1, 0, values.getD 0 0, 0, 1, values.getD 1 0, 0, 0, 1⟩
  else if name = "translatex" then
    if values.length ≠ 1 then t
    else matMul t ⟨1, 0, values.getD 0 0, 0, 1, 0, 0, 0, 1⟩
  else if name = "translatey" then
    if values.length ≠ 1 then t
    else matMul t ⟨1, 0, 0, 0, 1, values.getD 0 0, 0, 0, 1⟩
  else if name = "scale" then
    let values := if values.length = 1 then values ++ [values.getD 0 0] else values
    if values.length ≠ 2 then t
    else matMul t ⟨values.getD 0 0, 0, 0, 0, values.getD 1 0, 0, 0, 0, 1⟩
  else if name = "scalex" then
    if values.length ≠ 1 then t
    else matMul t ⟨values.getD 0 0, 0, 0, 0, 1, 0, 0, 0, 1⟩
  else if name = "scaley" then
    if values.length ≠ 1 then t
    else matMul t ⟨1, 0, 0, 0, values.getD 0 0, 0, 0, 0, 1⟩
  else if name = "rotate" ∨ name = "rotatez" then
    let values := if values.length = 1 then values ++ [0, 0] else values
    if values.length ≠ 3 then t
    else
      let a := values.getD 0 0 / 180 * ops.fpi
      matMul (matMul (matMul t ⟨1, 0, values.getD 1 0, 0, 1, values.getD 2 0, 0, 0, 1⟩)
          ⟨ops.fcos a, -(ops.fsin a), 0, ops.fsin a, ops.fcos a, 0, 0, 0, 1⟩)
        ⟨1, 0, -(values.getD 1 0), 0, 1, -(values.getD 2 0), 0, 0, 1⟩
  else if name = "skew" then
    if values.length ≠ 2 then t
    else matMul t ⟨1, ops.ftan (values.getD 0 0 / 180 * ops.fpi), 0,
                   ops.ftan (values.getD 1 0 / 180 * ops.fpi), 1, 0, 0, 0, 1⟩
  else if name = "skewx" then
    if values.length ≠ 1 then t
    else matMul t ⟨1, ops.ftan (values.getD 0 0 / 180 * ops.fpi), 0, 0, 1, 0, 0, 0, 1⟩
  else if name = "skewy" then
    if values.length ≠ 1 then t
    else matMul t ⟨1, 0, 0, ops.ftan (values.getD 0 0 / 180 * ops.fpi), 1, 0, 0, 0, 1⟩
  else t

/-- One iteration of the command loop of `Parser.convert_transform`:
handle `none`/`initial`, reject malformed function syntax (keeping the
accumulator), parse the arguments (`none` = `float()` raised) and dispatch. -/
def transformStep (ops : FloatOps) (t : Mat3) (command : List Char) : Option Mat3 :=
  let command := stripChars command
  if command = "none".toList then some t
  else if command = "initial".toList then some idMat3
  else if ¬ (command.contains '(') then some t
  else
    let parts := splitCharOn '(' command
    if parts.length ≠ 2 then some t
    else
      let name := String.mk (lowerChars (stripChars (parts.getD 0 [])))
      let value := parts.getD 1 []
      if ¬ (value.contains ')') then some t
      else
        let value := value.takeWhile (fun c => c != ')')
        match mapPyFloat (splitWsChars (replaceChar ',' [' '] value)) with
        | none => none
        | some values => some (applyTransformFn ops t name values)

/-- The command loop of `Parser.convert_transform`. -/
def processTransformCommands (ops : FloatOps) : Mat3 → List (List Char) → Option Mat3
  | t, [] => some t
  | t, c :: rest =>
    match transformStep ops t c with
    | none => none
    | some t1 => processTransformCommands ops t1 rest

/-- `Parser.convert_transform`: normalise separators, split into
`name(args)` tokens and fold them over the identity matrix. -/
def convert_transform (ops : FloatOps) (transform : String) : Option Mat3 :=
  let cs := replaceChar ')' [')', ' '] transform.toList
  let cs := collapseDoubleSpaces cs.length cs
  let cs := replacePair ',' ' ' [','] cs
  let cs := replacePair ' ' ',' [','] cs
  processTransformCommands ops idMat3 (splitWsChars cs)

theorem processTransformCommands_append (ops : FloatOps) (cs1 cs2 : List (List Char))
    (t : Mat3) :
    processTransformCommands ops t (cs1 ++ cs2) =
      (processTransformCommands ops t cs1).bind
        (fun t1 => processTransformCommands ops t1 cs2) := by
  induction cs1 generalizing t with
  | nil => simp [processTransformCommands]
  | cons c rest ih =>
    simp only [List.cons_append, processTransformCommands]
    cases transformStep ops t c with
    | none => simp
    | some t1 => simpa using ih t1

/-- Claim C9: compiling "translate(10,5) scale(2)" produces the translation
matrix post-multiplied by the scale matrix; applying the result maps (0,0)
to (10,5) and (1,1) to (12,7); and in general the command fold applies
transform functions left to right, later commands acting on the accumulator
produced by the earlier ones. -/
theorem c9_transform_round_trip :
    (∀ ops : FloatOps,
      convert_transform ops "translate(10,5) scale(2)" =
        some (matMul (matMul idMat3 ⟨1, 0, 10, 0, 1, 5, 0, 0, 1⟩)
          ⟨2, 0, 0, 0, 2, 0, 0, 0, 1⟩)) ∧
    applyT (matMul (matMul idMat3 ⟨1, 0, 10, 0, 1, 5, 0, 0, 1⟩)
      ⟨2, 0, 0, 0, 2, 0, 0, 0, 1⟩) 0 0 = (10, 5) ∧
    applyT (matMul (matMul idMat3 ⟨1, 0, 10, 0, 1, 5, 0, 0, 1⟩)
      ⟨2, 0, 0, 0, 2, 0, 0, 0, 1⟩) 1 1 = (12, 7) ∧
    (∀ (ops : FloatOps) (t : Mat3) (cs1 cs2 : List (List Char)),
      processTransformCommands ops t (cs1 ++ cs2) =
        (processTransformCommands ops t cs1).bind
          (fun t1 => processTransformCommands ops t1 cs2)) :=
  ⟨fun ops => by with_unfolding_all rfl,
   by with_unfolding_all decide,
   by with_unfolding_all decide,
   fun ops t cs1 cs2 => processTransformCommands_append ops cs1 cs2 t⟩

/-- The coordinates carried by a motion command. -/
def cmdXY : Cmd → ℚ × ℚ
  | .travel x y => (x, y)
  | .extrude x y _ => (x, y)

/-- `Parser.travel`: a single Travel to the transformed destination, with
the viewport origin offset subtracted. -/
def travel (st : PState) (end_x end_y : ℚ) (transformation : Mat3) : List Cmd :=
  let endT := applyT transformation end_x end_y
  [Cmd.travel (endT.1 - st.viewport_x * st.unit_w) (endT.2 - st.viewport_y * st.unit_h)]

/-- The `while self.dasharray_offset < 0` normalisation loop of
`Parser.extrude_line` (fuel-bounded). -/
def dashNorm (fuel : ℕ) (offset len : ℚ) : Option ℚ :=
  match fuel with
  | 0 => none
  | n + 1 => if offset < 0 then dashNorm n (offset + len) len else some offset

/-- The `while cumulative_sum + dasharray[i] < offset` position-finding loop
of `Parser.extrude_line` (fuel-bounded); returns the cumulative sum and the
pattern index. -/
def dashIndex (fuel : ℕ) (da : List ℚ) (offset cum : ℚ) (idx : ℕ) : Option (ℚ × ℕ) :=
  match fuel with
  | 0 => none
  | n + 1 =>
    if cum + da.getD idx 0 < offset then
      dashIndex n da offset (cum + da.getD idx 0) ((idx + 1) % da.length)
    else some (cum, idx)

/-- One position update of the dash-emission loop of `Parser.extrude_line`
(source lines 677-681): advance by the current dash, subtract a pending
partial segment once, clamp into `[0, line_length]`.  Returns the new
position and the remaining partial segment. -/
def dashStep (da : List ℚ) (lineLength position partialSeg : ℚ) (idx : ℕ) : ℚ × ℚ :=
  let p1 := position + da.getD idx 0
  let pp := if partialSeg > 0 then (p1 - partialSeg, (0 : ℚ)) else (p1, partialSeg)
  (max (min pp.1 lineLength) 0, pp.2)

/-- The `while position < line_length` dash-emission loop of
`Parser.extrude_line` (fuel-bounded): step along the segment's device-space
direction one dash at a time, emit an Extrude or Travel at the clamped
position depending on parity, and alternate. -/
def dashLoop (fuel : ℕ) (da : List ℚ) (lineLength startTx startTy dirX dirY vOffX vOffY w : ℚ)
    (position partialSeg : ℚ) (idx : ℕ) (isExtruding : Bool) : Option (List Cmd) :=
  match fuel with
  | 0 => none
  | n + 1 =>
    if position < lineLength then
      let q := dashStep da lineLength position partialSeg idx
      let x := startTx + dirX * q.1 - vOffX
      let y := startTy + dirY * q.1 - vOffY
      (dashLoop n da lineLength startTx startTy dirX dirY vOffX vOffY w q.1 q.2
        ((idx + 1) % da.length) (!isExtruding)).map
        (fun cmds => (if isExtruding then Cmd.extrude x y w else Cmd.travel x y) :: cmds)
    else some []

/-- `Parser.extrude_line`: transform the endpoints; when a dash pattern is
active, normalise the offset, locate the pattern position, walk the segment
emitting alternating Extrude/Travel spans and advance the running offset by
the segment's device-space length; always finish with an Extrude exactly at
the transformed end point minus the viewport origin offset. -/
def extrude_line (fuel : ℕ) (ops : FloatOps) (st : PState)
    (start_x start_y end_x end_y line_width : ℚ) (transformation : Mat3) :
    Option (List Cmd × PState) :=
  let endT := applyT transformation end_x end_y
  if st.dasharray ≠ [] then
    let startT := applyT transformation start_x start_y
    let dx := endT.1 - startT.1
    let dy := endT.2 - startT.2
    let line_length := ops.fsqrt (dx * dx + dy * dy)
    (dashNorm fuel st.dasharray_offset st.dasharray_length).bind fun offset =>
    (dashIndex fuel st.dasharray offset 0 0).bind fun ci =>
    (dashLoop fuel st.dasharray line_length startT.1 startT.2
        (dx / line_length) (dy / line_length)
        (st.viewport_x * st.unit_w) (st.viewport_y * st.unit_h) line_width
        0 (offset - ci.1) ci.2 (ci.2 % 2 == 0)).bind fun cmds =>
    some (cmds ++ [Cmd.extrude (endT.1 - st.viewport_x * st.unit_w)
            (endT.2 - st.viewport_y * st.unit_h) line_width],
          { st with dasharray_offset := offset + line_length })
  else
    some ([Cmd.extrude (endT.1 - st.viewport_x * st.unit_w)
            (endT.2 - st.viewport_y * st.unit_h) line_width], st)

theorem dashStep_nonneg (da : List ℚ) (lineLength position partialSeg : ℚ) (idx : ℕ) :
    0 ≤ (dashStep da lineLength position partialSeg idx).1 :=
  le_max_right _ _

theorem dashStep_le (da : List ℚ) (lineLength position partialSeg : ℚ) (idx : ℕ)
    (hL : 0 ≤ lineLength) :
    (dashStep da lineLength position partialSeg idx).1 ≤ lineLength :=
  max_le (min_le_right _ _) hL

theorem dashLoop_nil_iff (fuel : ℕ) (da : List ℚ)
    (lineLength startTx startTy dirX dirY vOffX vOffY w position partialSeg : ℚ)
    (idx : ℕ) (b : Bool) (cmds : List Cmd)
    (h : dashLoop fuel da lineLength startTx startTy dirX dirY vOffX vOffY w
      position partialSeg idx b = some cmds) :
    cmds = [] ↔ ¬ position < lineLength := by
  match fuel with
  | 0 => simp [dashLoop] at h
  | n + 1 =>
    rw [dashLoop] at h
    split at h
    · rename_i hpos
      rw [Option.map_eq_some'] at h
      obtain ⟨cmds1, _, rfl⟩ := h
      simp [hpos]
    · rename_i hpos
      simp only [Option.some.injEq] at h
      subst h
      simp [hpos]

theorem dashLoop_last (fuel : ℕ) (da : List ℚ)
    (lineLength startTx startTy dirX dirY vOffX vOffY w : ℚ) :
    ∀ (position partialSeg : ℚ) (idx : ℕ) (b : Bool) (cmds : List Cmd),
      0 ≤ position →
      dashLoop fuel da lineLength startTx startTy dirX dirY vOffX vOffY w
        position partialSeg idx b = some cmds →
      ∀ c, cmds.getLast? = some c →
        cmdXY c = (startTx + dirX * lineLength - vOffX, startTy + dirY * lineLength - vOffY) := by
  induction fuel with
  | zero => intro position partialSeg idx b cmds _ h; simp [dashLoop] at h
  | succ n ih =>
    intro position partialSeg idx b cmds hpos h c hc
    rw [dashLoop] at h
    split at h
    · rename_i hlt
      have hL : 0 < lineLength := lt_of_le_of_lt hpos hlt
      rw [Option.map_eq_some'] at h
      obtain ⟨cmds1, hr, rfl⟩ := h
      match cmds1, hc with
      | [], hc =>
        have hstop : ¬ (dashStep da lineLength position partialSeg idx).1 < lineLength :=
          (dashLoop_nil_iff _ _ _ _ _ _ _ _ _ _ _ _ _ _ _ hr).mp rfl
        have hq : (dashStep da lineLength position partialSeg idx).1 = lineLength :=
          le_antisymm (dashStep_le _ _ _ _ _ (le_of_lt hL)) (not_lt.mp hstop)
        simp only [List.getLast?_singleton, Option.some.injEq] at hc
        subst hc
        rw [hq]
        split <;> simp [cmdXY]
      | c1 :: cmds2, hc =>
        have hget : ((c1 :: cmds2) : List Cmd).getLast? = some c := by
          simpa using hc
        exact ih (dashStep da lineLength position partialSeg idx).1
          (dashStep da lineLength position partialSeg idx).2
          ((idx + 1) % da.length) (!b) (c1 :: cmds2)
          (dashStep_nonneg _ _ _ _ _) hr c hget
    · simp only [Option.some.injEq] at h
      subst h
      simp at hc

theorem dashLoop_nonempty_pos (fuel : ℕ) (da : List ℚ)
    (lineLength startTx startTy dirX dirY vOffX vOffY w partialSeg : ℚ)
    (idx : ℕ) (b : Bool) (cmds : List Cmd)
    (h : dashLoop fuel da lineLength startTx startTy dirX dirY vOffX vOffY w
      0 partialSeg idx b = some cmds) (hne : cmds ≠ []) :
    0 < lineLength := by
  by_contra hL
  exact hne ((dashLoop_nil_iff _ _ _ _ _ _ _ _ _ _ _ _ _ _ _ h).mpr
    (fun hlt => hL hlt))

/-- All parser-state fields except the running dash offset agree (the only
field the extrude generators mutate). -/
def samePS (a b : PState) : Prop :=
  a.resolution = b.resolution ∧ a.viewport_x = b.viewport_x ∧ a.viewport_y = b.viewport_y ∧
  a.viewport_w = b.viewport_w ∧ a.viewport_h = b.viewport_h ∧ a.image_w = b.image_w ∧
  a.image_h = b.image_h ∧ a.unit_w = b.unit_w ∧ a.unit_h = b.unit_h ∧
  a.dasharray = b.dasharray ∧ a.dasharray_length = b.dasharray_length

theorem samePS_trans {a b c : PState} (h1 : samePS a b) (h2 : samePS b c) : samePS a c := by
  obtain ⟨q1, q2, q3, q4, q5, q6, q7, q8, q9, q10, q11⟩ := h1
  obtain ⟨r1, r2, r3, r4, r5, r6, r7, r8, r9, r10, r11⟩ := h2
  exact ⟨q1.trans r1, q2.trans r2, q3.trans r3, q4.trans r4, q5.trans r5, q6.trans r6,
    q7.trans r7, q8.trans r8, q9.trans r9, q10.trans r10, q11.trans r11⟩

theorem extrude_line_last (fuel : ℕ) (ops : FloatOps) (st : PState)
    (sx sy ex ey w : ℚ) (t : Mat3) (cmds : List Cmd) (st' : PState)
    (h : extrude_line fuel ops st sx sy ex ey w t = some (cmds, st')) :
    cmds ≠ [] ∧
    cmds.getLast? = some (Cmd.extrude ((applyT t ex ey).1 - st.viewport_x * st.unit_w)
      ((applyT t ex ey).2 - st.viewport_y * st.unit_h) w) ∧
    samePS st' st := by
  rw [extrude_line] at h
  split at h
  · simp only [Option.bind_eq_some, Option.some.injEq, Prod.mk.injEq] at h
    obtain ⟨offset, hn, ci, hi, loopCmds, hl, hc, hs⟩ := h
    subst hc
    refine ⟨by simp, by simp, ?_⟩
    rw [← hs]
    exact ⟨rfl, rfl, rfl, rfl, rfl, rfl, rfl, rfl, rfl, rfl, rfl⟩
  · simp only [Option.some.injEq, Prod.mk.injEq] at h
    obtain ⟨hc, hs⟩ := h
    subst hc
    refine ⟨by simp, by simp, ?_⟩
    rw [← hs]
    exact ⟨rfl, rfl, rfl, rfl, rfl, rfl, rfl, rfl, rfl, rfl, rfl⟩

/-- Claim C10: every command sequence produced by `extrude_line` (whenever
its loops terminate) is non-empty, its final command is an Extrude exactly at
the transformed end point minus the viewport origin offset, and if the
command immediately before that final Extrude is a Travel (the dashed case
in which the end of the segment falls inside a non-marking span) then that
Travel is at the same position. -/
theorem c10_extrude_line_final (fuel : ℕ) (ops : FloatOps) (st : PState)
    (sx sy ex ey w : ℚ) (t : Mat3) (cmds : List Cmd) (st' : PState)
    (h : extrude_line fuel ops st sx sy ex ey w t = some (cmds, st')) :
    cmds ≠ [] ∧
    cmds.getLast? = some (Cmd.extrude ((applyT t ex ey).1 - st.viewport_x * st.unit_w)
      ((applyT t ex ey).2 - st.viewport_y * st.unit_h) w) ∧
    (∀ tx ty, cmds.dropLast.getLast? = some (Cmd.travel tx ty) →
      tx = (applyT t ex ey).1 - st.viewport_x * st.unit_w ∧
      ty = (applyT t ex ey).2 - st.viewport_y * st.unit_h) := by
  rw [extrude_line] at h
  split at h
  · simp only [Option.bind_eq_some, Option.some.injEq, Prod.mk.injEq] at h
    obtain ⟨offset, hn, ci, hi, loopCmds, hl, hc, hs⟩ := h
    subst hc
    refine ⟨by simp, by simp, ?_⟩
    intro tx ty htv
    rw [List.dropLast_concat] at htv
    have hne : loopCmds ≠ [] := by
      intro hnil
      rw [hnil] at htv
      simp at htv
    have hL : 0 < ops.fsqrt
        (((applyT t ex ey).1 - (applyT t sx sy).1) * ((applyT t ex ey).1 - (applyT t sx sy).1) +
          ((applyT t ex ey).2 - (applyT t sx sy).2) * ((applyT t ex ey).2 - (applyT t sx sy).2)) :=
      dashLoop_nonempty_pos _ _ _ _ _ _ _ _ _ _ _ _ _ _ hl hne
    have hlast := dashLoop_last _ _ _ _ _ _ _ _ _ _ 0 (offset - ci.1) ci.2
      (ci.2 % 2 == 0) loopCmds le_rfl hl (Cmd.travel tx ty) htv
    simp only [cmdXY, Prod.mk.injEq] at hlast
    obtain ⟨h1, h2⟩ := hlast
    rw [div_mul_cancel₀ _ (ne_of_gt hL)] at h1 h2
    constructor
    · rw [h1]; ring
    · rw [h2]; ring
  · simp only [Option.some.injEq, Prod.mk.injEq] at h
    obtain ⟨hc, hs⟩ := h
    subst hc
    refine ⟨by simp, by simp, ?_⟩
    intro tx ty htv
    simp at htv

/-- Float primitives for concrete runs: a square root that knows 16 = 4^2
and is 0 elsewhere (only the value at the argument actually reached
matters). -/
def opsW : FloatOps :=
  { fsqrt := fun q => if q = 16 then 4 else 0,
    fsin := fun _ => 0, fcos := fun _ => 0, facos := fun _ => 0,
    ftan := fun _ => 0, fpi := 0 }

/-- A concrete parser state with the dash pattern [1, 1] active. -/
def stDash : PState :=
  { resolution := 1, viewport_x := 0, viewport_y := 0, viewport_w := 100, viewport_h := 100,
    image_w := 100, image_h := 100, unit_w := 1, unit_h := 1,
    dasharray := [1, 1], dasharray_offset := 0, dasharray_length := 2 }

/-- The command list produced by the concrete dashed line of `c10_witness`. -/
def c10cmds : List Cmd :=
  [Cmd.extrude 1 0 1, Cmd.travel 2 0, Cmd.extrude 3 0 1, Cmd.travel 4 0, Cmd.extrude 4 0 1]

theorem c10_witness :
    extrude_line 10 opsW stDash 0 0 4 0 1 idMat3 =
      some (c10cmds, { stDash with dasharray_offset := 4 }) ∧
    (c10cmds ≠ [] ∧
     c10cmds.getLast? = some (Cmd.extrude ((applyT idMat3 4 0).1 - stDash.viewport_x * stDash.unit_w)
       ((applyT idMat3 4 0).2 - stDash.viewport_y * stDash.unit_h) 1) ∧
     (∀ tx ty, c10cmds.dropLast.getLast? = some (Cmd.travel tx ty) →
       tx = (applyT idMat3 4 0).1 - stDash.viewport_x * stDash.unit_w ∧
       ty = (applyT idMat3 4 0).2 - stDash.viewport_y * stDash.unit_h)) :=
  have hEq : extrude_line 10 opsW stDash 0 0 4 0 1 idMat3 =
      some (c10cmds, { stDash with dasharray_offset := 4 }) := by
    with_unfolding_all decide
  ⟨hEq, c10_extrude_line_final 10 opsW stDash 0 0 4 0 1 idMat3 c10cmds
    { stDash with dasharray_offset := 4 } hEq⟩

/-- The rotated-midpoint x'1 computation of `Parser.extrude_arc` (source
line 496), as a function of the sine/cosine of the x-axis rotation and the
untransformed endpoints. -/
def arc_x1 (cos_rotation sin_rotation start_x start_y end_x end_y : ℚ) : ℚ :=
  cos_rotation * (start_x - end_x) / 2 + sin_rotation * (start_y - end_y) / 2

/-- The rotated-midpoint y1 computation of `Parser.extrude_arc` (source
line 497). -/
def arc_y1 (cos_rotation sin_rotation start_x start_y end_x end_y : ℚ) : ℚ :=
  cos_rotation * (start_y - end_y) / 2 + sin_rotation * (start_x - end_x) / 2

/-- Modelled from the spec: the rotated midpoint of the STANDARD SVG
endpoint-to-center parameterization (W3C SVG implementation notes, the
document the source's comment cites), x1' = cos(theta) dx/2 + sin(theta) dy/2
and y1' = -sin(theta) dx/2 + cos(theta) dy/2 for dx = start - end. -/
def svgSpec_x1 (cos_rotation sin_rotation start_x start_y end_x end_y : ℚ) : ℚ :=
  cos_rotation * (start_x - end_x) / 2 + sin_rotation * (start_y - end_y) / 2

/-- Modelled from the spec: the y1' of the standard SVG endpoint-to-center
parameterization (see `svgSpec_x1`). -/
def svgSpec_y1 (cos_rotation sin_rotation start_x start_y end_x end_y : ℚ) : ℚ :=
  -sin_rotation * (start_x - end_x) / 2 + cos_rotation * (start_y - end_y) / 2

/-- Claim C1 (code divergence at the failing input): for a 90-degree x-axis
rotation (cos = 0, sin = 1), start (0,0) and end (2,0), the source's rotated
midpoint is (0, -1) while the standard SVG parameterization (which the
claim and the source's own comment assert) requires (0, 1): the sign of the
sin(theta) dx/2 term of y1 is flipped in the code. -/
theorem c1_arc_midpoint_sign_flip :
    arc_x1 0 1 0 0 2 0 = 0 ∧
    arc_y1 0 1 0 0 2 0 = -1 ∧
    svgSpec_x1 0 1 0 0 2 0 = 0 ∧
    svgSpec_y1 0 1 0 0 2 0 = 1 ∧
    arc_y1 0 1 0 0 2 0 ≠ svgSpec_y1 0 1 0 0 2 0 := by
  refine ⟨by with_unfolding_all decide, by with_unfolding_all decide,
    by with_unfolding_all decide, by with_unfolding_all decide,
    by with_unfolding_all decide⟩

/-- Python's float `%` operator, `a - b * floor(a / b)` (total on b = 0 in
the model, where Python would raise; never reached with b = 0 here unless
the abstract `fpi` is 0). -/
def pyMod (a b : ℚ) : ℚ :=
  a - b * (Rat.floor (a / b) : ℚ)

/-- The inner binary search of `Parser.extrude_arc` (source lines 540-558):
find the angle whose point is one resolution step from the current point in
device space, converging to 1 micron or stopping when the midpoint hits a
bound.  Returns (new_x, new_y, new_angle). -/
def arcFind (fuel : ℕ) (ops : FloatOps) (res : ℚ) (cx cy rx ry cos_rotation sin_rotation : ℚ)
    (t : Mat3) (current_x current_y : ℚ) (lower_angle upper_angle : ℚ)
    (current_error new_x new_y new_angle : ℚ) : Option (ℚ × ℚ × ℚ) :=
  match fuel with
  | 0 => none
  | n + 1 =>
    if |current_error| > 0.001 then
      let na := (lower_angle + upper_angle) / 2
      if na = lower_angle ∨ na = upper_angle then some (new_x, new_y, na)
      else
        let nx0 := ops.fcos na * rx
        let new_x_temp := nx0
        let ny0 := ops.fsin na * ry
        let nx1 := cos_rotation * nx0 - sin_rotation * ny0
        let ny1 := sin_rotation * new_x_temp + cos_rotation * ny0
        let nx := nx1 + cx
        let ny := ny1 + cy
        let nT := applyT t nx ny
        let cT := applyT t current_x current_y
        let current_step := ops.fsqrt ((nT.1 - cT.1) * (nT.1 - cT.1) + (nT.2 - cT.2) * (nT.2 - cT.2))
        let ce := current_step - res
        if ce > 0 then
          arcFind n ops res cx cy rx ry cos_rotation sin_rotation t current_x current_y
            lower_angle na ce nx ny na
        else
          arcFind n ops res cx cy rx ry cos_rotation sin_rotation t current_x current_y
            na upper_angle ce nx ny na
    else some (new_x, new_y, new_angle)

/-- The outer stepping loop of `Parser.extrude_arc` (source lines 533-564),
including the final exact line to the true end point emitted when the
current point is within one resolution of the transformed end. -/
def arcLoop (fuel : ℕ) (ops : FloatOps) (st : PState)
    (cx cy rx ry cos_rotation sin_rotation : ℚ) (start_angle end_angle : ℚ)
    (current_x current_y end_x end_y end_tx end_ty line_width : ℚ) (t : Mat3) :
    Option (List Cmd × PState) :=
  match fuel with
  | 0 => none
  | n + 1 =>
    let cT := applyT t current_x current_y
    if (cT.1 - end_tx) * (cT.1 - end_tx) + (cT.2 - end_ty) * (cT.2 - end_ty) >
        st.resolution * st.resolution then
      (arcFind n ops st.resolution cx cy rx ry cos_rotation sin_rotation t current_x current_y
          start_angle end_angle st.resolution current_x current_y start_angle).bind fun q =>
      (extrude_line n ops st current_x current_y q.1 q.2.1 line_width t).bind fun cs1 =>
      (arcLoop n ops cs1.2 cx cy rx ry cos_rotation sin_rotation q.2.2 end_angle
          q.1 q.2.1 end_x end_y end_tx end_ty line_width t).bind fun cs2 =>
      some (cs1.1 ++ cs2.1, cs2.2)
    else
      extrude_line n ops st current_x current_y end_x end_y line_width t

/-- `Parser.extrude_arc`: degenerate endpoints emit nothing; zero radii or
endpoints within one resolution degrade to a straight line; otherwise the
ellipse centre and angles are computed (source lines 492-527, including the
radius scaling by sqrt(lambda)) and the arc is stepped by `arcLoop`. -/
def extrude_arc (fuel : ℕ) (ops : FloatOps) (st : PState)
    (start_x start_y rx0 ry0 rotation : ℚ) (large_arc sweep_flag : Bool)
    (end_x end_y line_width : ℚ) (t : Mat3) : Option (List Cmd × PState) :=
  if start_x = end_x ∧ start_y = end_y then some ([], st)
  else
    let rx := |rx0|
    let ry := |ry0|
    if rx = 0 ∨ ry = 0 then
      extrude_line fuel ops st start_x start_y end_x end_y line_width t
    else
      let startT := applyT t start_x start_y
      let endT := applyT t end_x end_y
      if (endT.1 - startT.1) * (endT.1 - startT.1) + (endT.2 - startT.2) * (endT.2 - startT.2) ≤
          st.resolution * st.resolution then
        extrude_line fuel ops st start_x start_y end_x end_y line_width t
      else
        let sin_rotation := ops.fsin (rotation / 180 * ops.fpi)
        let cos_rotation := ops.fcos (rotation / 180 * ops.fpi)
        let x1 := arc_x1 cos_rotation sin_rotation start_x start_y end_x end_y
        let y1 := arc_y1 cos_rotation sin_rotation start_x start_y end_x end_y
        let lambda_multiplier := (x1 * x1) / (rx * rx) + (y1 * y1) / (ry * ry)
        let rx := if lambda_multiplier > 1 then rx * ops.fsqrt lambda_multiplier else rx
        let ry := if lambda_multiplier > 1 then ry * ops.fsqrt lambda_multiplier else ry
        let sum_squares := rx * y1 * rx * y1 + ry * x1 * ry * x1
        let coefficient0 := ops.fsqrt |(rx * ry * rx * ry - sum_squares) / sum_squares|
        let coefficient := if large_arc = sweep_flag then -coefficient0 else coefficient0
        let cx_original := coefficient * rx * y1 / ry
        let cy_original := -coefficient * ry * x1 / rx
        let cx := cos_rotation * cx_original - sin_rotation * cy_original + (start_x + end_x) / 2
        let cy := sin_rotation * cx_original + cos_rotation * cy_original + (start_y + end_y) / 2
        let xcr_start := (x1 - cx_original) / rx
        let xcr_end := (x1 + cx_original) / rx
        let ycr_start := (y1 - cy_original) / ry
        let ycr_end := (y1 + cy_original) / ry
        let mod1 := ops.fsqrt (xcr_start * xcr_start + ycr_start * ycr_start)
        let start_angle0 := ops.facos (xcr_start / mod1)
        let start_angle := if ycr_start < 0 then -start_angle0 else start_angle0
        let dot := -xcr_start * xcr_end - ycr_start * ycr_end
        let mod2 := ops.fsqrt ((xcr_start * xcr_start + ycr_start * ycr_start) *
          (xcr_end * xcr_end + ycr_end * ycr_end))
        let delta_angle0 := ops.facos (dot / mod2)
        let delta_angle1 := if xcr_start * ycr_end - ycr_start * xcr_end < 0 then -delta_angle0
          else delta_angle0
        let delta_angle2 := pyMod delta_angle1 (ops.fpi * 2)
        let delta_angle := if ¬ sweep_flag then delta_angle2 - ops.fpi * 2 else delta_angle2
        let end_angle := start_angle + delta_angle
        arcLoop fuel ops st cx cy rx ry cos_rotation sin_rotation start_angle end_angle
          start_x start_y end_x end_y endT.1 endT.2 line_width t

/-- The de Casteljau evaluation of a cubic at parameter p
(source lines 615-628). -/
def cubicPoint (start_x start_y handle1_x handle1_y handle2_x handle2_y end_x end_y p : ℚ) :
    ℚ × ℚ :=
  let linear1_x := start_x + p * (handle1_x - start_x)
  let linear1_y := start_y + p * (handle1_y - start_y)
  let linear2_x := handle1_x + p * (handle2_x - handle1_x)
  let linear2_y := handle1_y + p * (handle2_y - handle1_y)
  let linear3_x := handle2_x + p * (end_x - handle2_x)
  let linear3_y := handle2_y + p * (end_y - handle2_y)
  let quadratic1_x := linear1_x + p * (linear2_x - linear1_x)
  let quadratic1_y := linear1_y + p * (linear2_y - linear1_y)
  let quadratic2_x := linear2_x + p * (linear3_x - linear2_x)
  let quadratic2_y := linear2_y + p * (linear3_y - linear2_y)
  (quadratic1_x + p * (quadratic2_x - quadratic1_x),
   quadratic1_y + p * (quadratic2_y - quadratic1_y))

/-- The inner parameter search of `Parser.extrude_cubic` (source lines
605-634): lower-weighted bisection `(3 p_min + p_max) / 4` because a cubic
can loop back near its start.  Returns (new_x, new_y, new_p). -/
def cubicFind (fuel : ℕ) (ops : FloatOps) (res : ℚ) (t : Mat3)
    (start_x start_y handle1_x handle1_y handle2_x handle2_y end_x end_y : ℚ)
    (cT : ℚ × ℚ) (p_min p_max : ℚ) (new_error new_x new_y new_p : ℚ) : Option (ℚ × ℚ × ℚ) :=
  match fuel with
  | 0 => none
  | n + 1 =>
    if |new_error| > 0.001 then
      let np := (p_min * 3 + p_max) / 4
      if np = p_min ∨ np = p_max then some (new_x, new_y, np)
      else
        let q := cubicPoint start_x start_y handle1_x handle1_y handle2_x handle2_y end_x end_y np
        let nT := applyT t q.1 q.2
        let ne := ops.fsqrt ((nT.1 - cT.1) * (nT.1 - cT.1) + (nT.2 - cT.2) * (nT.2 - cT.2)) - res
        if ne > 0 then
          cubicFind n ops res t start_x start_y handle1_x handle1_y handle2_x handle2_y
            end_x end_y cT p_min np ne q.1 q.2 np
        else
          cubicFind n ops res t start_x start_y handle1_x handle1_y handle2_x handle2_y
            end_x end_y cT np p_max ne q.1 q.2 np
    else some (new_x, new_y, new_p)

/-- The outer stepping loop of `Parser.extrude_cubic` (source lines
599-641), including the final exact line to the end point. -/
def cubicLoop (fuel : ℕ) (ops : FloatOps) (st : PState)
    (start_x start_y handle1_x handle1_y handle2_x handle2_y end_x end_y : ℚ)
    (current_x current_y p_min : ℚ) (eT : ℚ × ℚ) (line_width : ℚ) (t : Mat3) :
    Option (List Cmd × PState) :=
  match fuel with
  | 0 => none
  | n + 1 =>
    let cT := applyT t current_x current_y
    if (cT.1 - eT.1) * (cT.1 - eT.1) + (cT.2 - eT.2) * (cT.2 - eT.2) >
        st.resolution * st.resolution then
      (cubicFind n ops st.resolution t start_x start_y handle1_x handle1_y handle2_x handle2_y
          end_x end_y cT p_min 1 st.resolution current_x current_y p_min).bind fun q =>
      (extrude_line n ops st current_x current_y q.1 q.2.1 line_width t).bind fun cs1 =>
      (cubicLoop n ops cs1.2 start_x start_y handle1_x handle1_y handle2_x handle2_y
          end_x end_y q.1 q.2.1 q.2.2 eT line_width t).bind fun cs2 =>
      some (cs1.1 ++ cs2.1, cs2.2)
    else
      extrude_line n ops st current_x current_y end_x end_y line_width t

/-- `Parser.extrude_cubic`. -/
def extrude_cubic (fuel : ℕ) (ops : FloatOps) (st : PState)
    (start_x start_y handle1_x handle1_y handle2_x handle2_y end_x end_y line_width : ℚ)
    (t : Mat3) : Option (List Cmd × PState) :=
  cubicLoop fuel ops st start_x start_y handle1_x handle1_y handle2_x handle2_y end_x end_y
    start_x start_y 0 (applyT t end_x end_y) line_width t

/-- The sliding-point evaluation of a quadratic at parameter p
(source lines 748-754). -/
def quadPoint (start_x start_y handle_x handle_y end_x end_y p : ℚ) : ℚ × ℚ :=
  let linear1_x := start_x + p * (handle_x - start_x)
  let linear1_y := start_y + p * (handle_y - start_y)
  let linear2_x := handle_x + p * (end_x - handle_x)
  let linear2_y := handle_y + p * (end_y - handle_y)
  (linear1_x + p * (linear2_x - linear1_x), linear1_y + p * (linear2_y - linear1_y))

/-- The inner parameter search of `Parser.extrude_quadratic` (source lines
743-760): plain midpoint bisection.  Returns (new_x, new_y, new_p). -/
def quadFind (fuel : ℕ) (ops : FloatOps) (res : ℚ) (t : Mat3)
    (start_x start_y handle_x handle_y end_x end_y : ℚ)
    (cT : ℚ × ℚ) (p_min p_max : ℚ) (new_error new_x new_y new_p : ℚ) : Option (ℚ × ℚ × ℚ) :=
  match fuel with
  | 0 => none
  | n + 1 =>
    if |new_error| > 0.001 then
      let np := (p_min + p_max) / 2
      if np = p_min ∨ np = p_max then some (new_x, new_y, np)
      else
        let q := quadPoint start_x start_y handle_x handle_y end_x end_y np
        let nT := applyT t q.1 q.2
        let ne := ops.fsqrt ((nT.1 - cT.1) * (nT.1 - cT.1) + (nT.2 - cT.2) * (nT.2 - cT.2)) - res
        if ne > 0 then
          quadFind n ops res t start_x start_y handle_x handle_y end_x end_y cT p_min np ne q.1 q.2 np
        else
          quadFind n ops res t start_x start_y handle_x handle_y end_x end_y cT np p_max ne q.1 q.2 np
    else some (new_x, new_y, new_p)

/-- The outer stepping loop of `Parser.extrude_quadratic` (source lines
737-767), including the final exact line to the end point. -/
def quadLoop (fuel : ℕ) (ops : FloatOps) (st : PState)
    (start_x start_y handle_x handle_y end_x end_y : ℚ)
    (current_x current_y p_min : ℚ) (eT : ℚ × ℚ) (line_width : ℚ) (t : Mat3) :
    Option (List Cmd × PState) :=
  match fuel with
  | 0 => none
  | n + 1 =>
    let cT := applyT t current_x current_y
    if (cT.1 - eT.1) * (cT.1 - eT.1) + (cT.2 - eT.2) * (cT.2 - eT.2) >
        st.resolution * st.resolution then
      (quadFind n ops st.resolution t start_x start_y handle_x handle_y end_x end_y
          cT p_min 1 st.resolution current_x current_y p_min).bind fun q =>
      (extrude_line n ops st current_x current_y q.1 q.2.1 line_width t).bind fun cs1 =>
      (quadLoop n ops cs1.2 start_x start_y handle_x handle_y end_x end_y
          q.1 q.2.1 q.2.2 eT line_width t).bind fun cs2 =>
      some (cs1.1 ++ cs2.1, cs2.2)
    else
      extrude_line n ops st current_x current_y end_x end_y line_width t

/-- The colinear-handle short-circuit test of `Parser.extrude_quadratic`
(source lines 717-730). -/
def quadShortcut (start_x start_y handle_x handle_y end_x end_y : ℚ) : Bool :=
  if start_x = end_x then
    decide (handle_x = start_x ∧ ((start_y ≤ handle_y ∧ handle_y ≤ end_y) ∨
      (start_y ≥ handle_y ∧ handle_y ≥ end_y)))
  else if start_y = end_y then
    decide (handle_y = start_y ∧ ((start_x ≤ handle_x ∧ handle_x ≤ end_x) ∨
      (start_x ≥ handle_x ∧ handle_x ≥ end_x)))
  else
    decide (|(handle_x - start_x) / (end_x - start_x) -
        (handle_y - start_y) / (end_y - start_y)| = 0 ∧
      ((start_x ≤ handle_x ∧ handle_x ≤ end_x) ∨ (start_x ≥ handle_x ∧ handle_x ≥ end_x)))

/-- `Parser.extrude_quadratic`: short-circuit to a straight line when the
handle is colinear with (and between) the endpoints, else step the curve. -/
def extrude_quadratic (fuel : ℕ) (ops : FloatOps) (st : PState)
    (start_x start_y handle_x handle_y end_x end_y line_width : ℚ) (t : Mat3) :
    Option (List Cmd × PState) :=
  if quadShortcut start_x start_y handle_x handle_y end_x end_y then
    extrude_line fuel ops st start_x start_y end_x end_y line_width t
  else
    quadLoop fuel ops st start_x start_y handle_x handle_y end_x end_y
      start_x start_y 0 (applyT t end_x end_y) line_width t

theorem arcLoop_last (fuel : ℕ) (ops : FloatOps) :
    ∀ (st : PState) (cx cy rx ry cosr sinr sa ea curx cury ex ey etx ety w : ℚ) (t : Mat3)
      (cmds : List Cmd) (st' : PState),
      arcLoop fuel ops st cx cy rx ry cosr sinr sa ea curx cury ex ey etx ety w t =
        some (cmds, st') →
      cmds ≠ [] ∧
      cmds.getLast? = some (Cmd.extrude ((applyT t ex ey).1 - st.viewport_x * st.unit_w)
        ((applyT t ex ey).2 - st.viewport_y * st.unit_h) w) ∧
      samePS st' st := by
  induction fuel with
  | zero =>
    intro st cx cy rx ry cosr sinr sa ea curx cury ex ey etx ety w t cmds st' h
    simp [arcLoop] at h
  | succ n ih =>
    intro st cx cy rx ry cosr sinr sa ea curx cury ex ey etx ety w t cmds st' h
    rw [arcLoop] at h
    split at h
    · simp only [Option.bind_eq_some] at h
      obtain ⟨q, hq, ⟨c1, s1⟩, h1, ⟨c2, s2⟩, h2, heq⟩ := h
      simp only [Option.some.injEq, Prod.mk.injEq] at heq
      obtain ⟨hc, hs⟩ := heq
      subst hc
      subst hs
      obtain ⟨hne1, hlast1, hpre1⟩ := extrude_line_last n ops st curx cury q.1 q.2.1 w t c1 s1 h1
      obtain ⟨hne2, hlast2, hpre2⟩ := ih s1 cx cy rx ry cosr sinr q.2.2 ea q.1 q.2.1
        ex ey etx ety w t c2 s2 h2
      have hpre1c := hpre1
      obtain ⟨_, hvx, hvy, _, _, _, _, huw, huh, _, _⟩ := hpre1c
      rw [hvx, hvy, huw, huh] at hlast2
      refine ⟨by simp [hne2], ?_, samePS_trans hpre2 hpre1⟩
      rw [List.getLast?_append_of_ne_nil _ hne2, hlast2]
    · exact extrude_line_last n ops st curx cury ex ey w t cmds st' h

theorem cubicLoop_last (fuel : ℕ) (ops : FloatOps) :
    ∀ (st : PState) (sx sy h1x h1y h2x h2y ex ey curx cury pmin w : ℚ) (eT : ℚ × ℚ) (t : Mat3)
      (cmds : List Cmd) (st' : PState),
      cubicLoop fuel ops st sx sy h1x h1y h2x h2y ex ey curx cury pmin eT w t =
        some (cmds, st') →
      cmds ≠ [] ∧
      cmds.getLast? = some (Cmd.extrude ((applyT t ex ey).1 - st.viewport_x * st.unit_w)
        ((applyT t ex ey).2 - st.viewport_y * st.unit_h) w) ∧
      samePS st' st := by
  induction fuel with
  | zero =>
    intro st sx sy h1x h1y h2x h2y ex ey curx cury pmin w eT t cmds st' h
    simp [cubicLoop] at h
  | succ n ih =>
    intro st sx sy h1x h1y h2x h2y ex ey curx cury pmin w eT t cmds st' h
    rw [cubicLoop] at h
    split at h
    · simp only [Option.bind_eq_some] at h
      obtain ⟨q, hq, ⟨c1, s1⟩, h1, ⟨c2, s2⟩, h2, heq⟩ := h
      simp only [Option.some.injEq, Prod.mk.injEq] at heq
      obtain ⟨hc, hs⟩ := heq
      subst hc
      subst hs
      obtain ⟨hne1, hlast1, hpre1⟩ := extrude_line_last n ops st curx cury q.1 q.2.1 w t c1 s1 h1
      obtain ⟨hne2, hlast2, hpre2⟩ := ih s1 sx sy h1x h1y h2x h2y ex ey q.1 q.2.1 q.2.2
        w eT t c2 s2 h2
      have hpre1c := hpre1
      obtain ⟨_, hvx, hvy, _, _, _, _, huw, huh, _, _⟩ := hpre1c
      rw [hvx, hvy, huw, huh] at hlast2
      refine ⟨by simp [hne2], ?_, samePS_trans hpre2 hpre1⟩
      rw [List.getLast?_append_of_ne_nil _ hne2, hlast2]
    · exact extrude_line_last n ops st curx cury ex ey w t cmds st' h

theorem quadLoop_last (fuel : ℕ) (ops : FloatOps) :
    ∀ (st : PState) (sx sy hx hy ex ey curx cury pmin w : ℚ) (eT : ℚ × ℚ) (t : Mat3)
      (cmds : List Cmd) (st' : PState),
      quadLoop fuel ops st sx sy hx hy ex ey curx cury pmin eT w t = some (cmds, st') →
      cmds ≠ [] ∧
      cmds.getLast? = some (Cmd.extrude ((applyT t ex ey).1 - st.viewport_x * st.unit_w)
        ((applyT t ex ey).2 - st.viewport_y * st.unit_h) w) ∧
      samePS st' st := by
  induction fuel with
  | zero =>
    intro st sx sy hx hy ex ey curx cury pmin w eT t cmds st' h
    simp [quadLoop] at h
  | succ n ih =>
    intro st sx sy hx hy ex ey curx cury pmin w eT t cmds st' h
    rw [quadLoop] at h
    split at h
    · simp only [Option.bind_eq_some] at h
      obtain ⟨q, hq, ⟨c1, s1⟩, h1, ⟨c2, s2⟩, h2, heq⟩ := h
      simp only [Option.some.injEq, Prod.mk.injEq] at heq
      obtain ⟨hc, hs⟩ := heq
      subst hc
      subst hs
      obtain ⟨hne1, hlast1, hpre1⟩ := extrude_line_last n ops st curx cury q.1 q.2.1 w t c1 s1 h1
      obtain ⟨hne2, hlast2, hpre2⟩ := ih s1 sx sy hx hy ex ey q.1 q.2.1 q.2.2 w eT t c2 s2 h2
      have hpre1c := hpre1
      obtain ⟨_, hvx, hvy, _, _, _, _, huw, huh, _, _⟩ := hpre1c
      rw [hvx, hvy, huw, huh] at hlast2
      refine ⟨by simp [hne2], ?_, samePS_trans hpre2 hpre1⟩
      rw [List.getLast?_append_of_ne_nil _ hne2, hlast2]
    · exact extrude_line_last n ops st curx cury ex ey w t cmds st' h

/-- Claim C2: whenever the flattening of a cubic Bezier, a quadratic Bezier,
or an elliptical arc with distinct endpoints terminates, the last emitted
command is an Extrude whose point is within 1e-6 mm of the transformed curve
end point (minus the viewport origin offset) — in fact exactly equal to it,
because a final exact line to the true end point is always emitted —
regardless of the resolution tolerance in the parser state. -/
theorem c2_curve_endpoint_exactness :
    (∀ (fuel : ℕ) (ops : FloatOps) (st : PState) (sx sy h1x h1y h2x h2y ex ey w : ℚ)
      (t : Mat3) (cmds : List Cmd) (st' : PState),
      extrude_cubic fuel ops st sx sy h1x h1y h2x h2y ex ey w t = some (cmds, st') →
      ∃ lx ly, cmds.getLast? = some (Cmd.extrude lx ly w) ∧
        |lx - ((applyT t ex ey).1 - st.viewport_x * st.unit_w)| ≤ 1 / 1000000 ∧
        |ly - ((applyT t ex ey).2 - st.viewport_y * st.unit_h)| ≤ 1 / 1000000) ∧
    (∀ (fuel : ℕ) (ops : FloatOps) (st : PState) (sx sy hx hy ex ey w : ℚ)
      (t : Mat3) (cmds : List Cmd) (st' : PState),
      extrude_quadratic fuel ops st sx sy hx hy ex ey w t = some (cmds, st') →
      ∃ lx ly, cmds.getLast? = some (Cmd.extrude lx ly w) ∧
        |lx - ((applyT t ex ey).1 - st.viewport_x * st.unit_w)| ≤ 1 / 1000000 ∧
        |ly - ((applyT t ex ey).2 - st.viewport_y * st.unit_h)| ≤ 1 / 1000000) ∧
    (∀ (fuel : ℕ) (ops : FloatOps) (st : PState) (sx sy rx ry rot : ℚ) (la sw : Bool)
      (ex ey w : ℚ) (t : Mat3) (cmds : List Cmd) (st' : PState),
      ¬ (sx = ex ∧ sy = ey) →
      extrude_arc fuel ops st sx sy rx ry rot la sw ex ey w t = some (cmds, st') →
      ∃ lx ly, cmds.getLast? = some (Cmd.extrude lx ly w) ∧
        |lx - ((applyT t ex ey).1 - st.viewport_x * st.unit_w)| ≤ 1 / 1000000 ∧
        |ly - ((applyT t ex ey).2 - st.viewport_y * st.unit_h)| ≤ 1 / 1000000) := by
  refine ⟨?_, ?_, ?_⟩
  · intro fuel ops st sx sy h1x h1y h2x h2y ex ey w t cmds st' h
    simp only [extrude_cubic] at h
    obtain ⟨-, hlast, -⟩ := cubicLoop_last fuel ops st sx sy h1x h1y h2x h2y ex ey
      sx sy 0 w (applyT t ex ey) t cmds st' h
    exact ⟨_, _, hlast, by simp, by simp⟩
  · intro fuel ops st sx sy hx hy ex ey w t cmds st' h
    simp only [extrude_quadratic] at h
    split at h
    · obtain ⟨-, hlast, -⟩ := extrude_line_last fuel ops st sx sy ex ey w t cmds st' h
      exact ⟨_, _, hlast, by simp, by simp⟩
    · obtain ⟨-, hlast, -⟩ := quadLoop_last fuel ops st sx sy hx hy ex ey
        sx sy 0 w (applyT t ex ey) t cmds st' h
      exact ⟨_, _, hlast, by simp, by simp⟩
  · intro fuel ops st sx sy rx ry rot la sw ex ey w t cmds st' hne h
    simp only [extrude_arc] at h
    rw [if_neg hne] at h
    split at h
    · obtain ⟨-, hlast, -⟩ := extrude_line_last fuel ops st sx sy ex ey w t cmds st' h
      exact ⟨_, _, hlast, by simp, by simp⟩
    · split at h
      · obtain ⟨-, hlast, -⟩ := extrude_line_last fuel ops st sx sy ex ey w t cmds st' h
        exact ⟨_, _, hlast, by simp, by simp⟩
      · obtain ⟨-, hlast, -⟩ := arcLoop_last fuel ops st _ _ _ _ _ _ _ _ sx sy ex ey
          (applyT t ex ey).1 (applyT t ex ey).2 w t cmds st' h
        exact ⟨_, _, hlast, by simp, by simp⟩

theorem c2_witness :
    (extrude_cubic 3 opsW stOne 0 0 0 0 0 0 0 0 1 idMat3 =
      some ([Cmd.extrude 0 0 1], stOne) ∧
     ∃ lx ly, ([Cmd.extrude 0 0 1] : List Cmd).getLast? = some (Cmd.extrude lx ly 1) ∧
       |lx - ((applyT idMat3 0 0).1 - stOne.viewport_x * stOne.unit_w)| ≤ 1 / 1000000 ∧
       |ly - ((applyT idMat3 0 0).2 - stOne.viewport_y * stOne.unit_h)| ≤ 1 / 1000000) ∧
    (extrude_quadratic 3 opsW stOne 0 0 1 0 2 0 1 idMat3 =
      some ([Cmd.extrude 2 0 1], stOne) ∧
     ∃ lx ly, ([Cmd.extrude 2 0 1] : List Cmd).getLast? = some (Cmd.extrude lx ly 1) ∧
       |lx - ((applyT idMat3 2 0).1 - stOne.viewport_x * stOne.unit_w)| ≤ 1 / 1000000 ∧
       |ly - ((applyT idMat3 2 0).2 - stOne.viewport_y * stOne.unit_h)| ≤ 1 / 1000000) ∧
    (¬ ((0 : ℚ) = 1 ∧ (0 : ℚ) = 0) ∧
     extrude_arc 3 opsW stOne 0 0 0 0 0 false false 1 0 1 idMat3 =
      some ([Cmd.extrude 1 0 1], stOne) ∧
     ∃ lx ly, ([Cmd.extrude 1 0 1] : List Cmd).getLast? = some (Cmd.extrude lx ly 1) ∧
       |lx - ((applyT idMat3 1 0).1 - stOne.viewport_x * stOne.unit_w)| ≤ 1 / 1000000 ∧
       |ly - ((applyT idMat3 1 0).2 - stOne.viewport_y * stOne.unit_h)| ≤ 1 / 1000000) :=
  have h1 : extrude_cubic 3 opsW stOne 0 0 0 0 0 0 0 0 1 idMat3 =
      some ([Cmd.extrude 0 0 1], stOne) := by with_unfolding_all decide
  have h2 : extrude_quadratic 3 opsW stOne 0 0 1 0 2 0 1 idMat3 =
      some ([Cmd.extrude 2 0 1], stOne) := by with_unfolding_all decide
  have hne : ¬ ((0 : ℚ) = 1 ∧ (0 : ℚ) = 0) := by with_unfolding_all decide
  have h3 : extrude_arc 3 opsW stOne 0 0 0 0 0 false false 1 0 1 idMat3 =
      some ([Cmd.extrude 1 0 1], stOne) := by with_unfolding_all decide
  ⟨⟨h1, c2_curve_endpoint_exactness.1 3 opsW stOne 0 0 0 0 0 0 0 0 1 idMat3 _ _ h1⟩,
   ⟨h2, c2_curve_endpoint_exactness.2.1 3 opsW stOne 0 0 1 0 2 0 1 idMat3 _ _ h2⟩,
   ⟨hne, h3, c2_curve_endpoint_exactness.2.2 3 opsW stOne 0 0 0 0 0 false false 1 0 1 idMat3
     _ _ hne h3⟩⟩

/-- Drop one optional leading sign character. -/
def dropSignHead (cs : List Char) : List Char :=
  match cs with
  | c :: r => if c = '+' ∨ c = '-' then r else cs
  | [] => []

/-- Full-string match of the mantissa "digits+ or digits* . digits+". -/
def mantissaMatch (cs : List Char) : Bool :=
  let (d1, r) := spanDigits cs
  match r with
  | [] => !d1.isEmpty
  | '.' :: r2 =>
    let (d2, r3) := spanDigits r2
    !d2.isEmpty && r3.isEmpty
  | _ => false

/-- Full-string match of an optional exponent "([eE][-+]?digits+)?". -/
def expMatch : List Char → Bool
  | [] => true
  | e :: r =>
    if e = 'e' ∨ e = 'E' then
      let (d, r3) := spanDigits (dropSignHead r)
      !d.isEmpty && r3.isEmpty
    else false

/-- Full-string match of the source's float pattern (the `is_float` regex of
`convert_css`); a regex full match holds exactly when some decomposition into
the regex's parts consumes the whole string. -/
def reFloat (cs : List Char) : Bool :=
  let cs1 := dropSignHead cs
  (List.range (cs1.length + 1)).any (fun i => mantissaMatch (cs1.take i) && expMatch (cs1.drop i))

/-- The CSS unit alternation of the `is_length` / `is_list_of_lengths`
regexes of `convert_css`, in source order (note the case-sensitive `Q`). -/
def cssUnits : List (List Char) :=
  ["cap".toList, "ch".toList, "em".toList, "ex".toList, "ic".toList, "lh".toList,
   "rem".toList, "rlh".toList, "vh".toList, "vw".toList, "vi".toList, "vb".toList,
   "vmin".toList, "vmax".toList, "px".toList, "cm".toList, "mm".toList, "Q".toList,
   "in".toList, "pc".toList, "pt".toList, "%".toList]

/-- Full-string match of an optional unit. -/
def unitOpt (cs : List Char) : Bool :=
  cs.isEmpty || cssUnits.contains cs

/-- Full-string match of the source's `is_length` regex: a float followed by
an optional unit. -/
def reLength (cs : List Char) : Bool :=
  (List.range (cs.length + 1)).any (fun i => reFloat (cs.take i) && unitOpt (cs.drop i))

/-- Full-string match of the trailing "(number)? (unit)?" part of the
`is_list_of_lengths` regex. -/
def lolTail (cs : List Char) : Bool :=
  (List.range (cs.length + 1)).any (fun i =>
    ((cs.take i).isEmpty || reFloat (cs.take i)) && unitOpt (cs.drop i))

/-- Full-string match of one starred group "number unit? [,\s]" of the
`is_list_of_lengths` regex. -/
def lolGroup (cs : List Char) : Bool :=
  match cs.getLast? with
  | some c => (c = ',' ∨ isWs c) && reLength cs.dropLast
  | none => false

/-- Full-string match of the source's `is_list_of_lengths` regex
"(number unit? sep)* (number)? (unit)?"; fuel bounds the number of starred
groups (each consumes at least one character, so the input length is always
enough). -/
def reListOfLengths (fuel : ℕ) (cs : List Char) : Bool :=
  match fuel with
  | 0 => lolTail cs
  | n + 1 =>
    lolTail cs ||
    (List.range (cs.length + 1)).any (fun i =>
      lolGroup (cs.take i) && reListOfLengths n (cs.drop i))

/-- The per-property validation predicates of `Parser.convert_css`
(source lines 122-135). -/
def cssAttributeValidate (attr value : String) : Bool :=
  if attr = "font-family" then true
  else if attr = "font-weight" then reFloat value.toList
  else if attr = "font-size" then reLength value.toList
  else if attr = "font-style" then
    ["normal", "italic", "oblique", "initial"].contains value
  else if attr = "stroke-dasharray" then reListOfLengths value.toList.length value.toList
  else if attr = "stroke-dashoffset" then reLength value.toList
  else if attr = "stroke-width" then reLength value.toList
  else if attr = "text-decoration" then true
  else if attr = "text-decoration-line" then
    ((splitWsChars value.toList).map String.mk).all
      (fun part => ["none", "overline", "underline", "line-through", "initial"].contains part)
  else if attr = "text-decoration-style" then
    ["solid", "double", "dotted", "dashed", "wavy", "initial"].contains value
  else if attr = "text-transform" then
    ["none", "capitalize", "uppercase", "lowercase", "initial"].contains value
  else if attr = "transform" then true
  else false

/-- The supported attributes of `convert_css`, in the source dictionary's
insertion (= iteration) order. -/
def cssAttrs : List String :=
  ["font-family", "font-weight", "font-size", "font-style", "stroke-dasharray",
   "stroke-dashoffset", "stroke-width", "text-decoration", "text-decoration-line",
   "text-decoration-style", "text-transform", "transform"]

/-- Python-dict-style association-list update: overwrite in place if the key
exists, else append (preserving insertion order). -/
def aset (a : List (String × String)) (k v : String) : List (String × String) :=
  match a with
  | [] => [(k, v)]
  | (k0, v0) :: rest => if k0 = k then (k0, v) :: rest else (k0, v0) :: aset rest k v

/-- Key-presence test for the association-list dictionary model. -/
def ahas (a : List (String × String)) (k : String) : Bool :=
  (a.lookup k).isSome

/-- Python `del d[k]` for the association-list dictionary model. -/
def adel (a : List (String × String)) (k : String) : List (String × String) :=
  a.filter (fun p => !(p.1 == k))

/-- Python `d.update(other)` for the association-list dictionary model. -/
def aupdate (a b : List (String × String)) : List (String × String) :=
  b.foldl (fun acc p => aset acc p.1 p.2) a

/-- `Parser.convert_css`: split on ';', strip each declaration, and for each
supported attribute in dictionary order test the (threaded, mutated) piece
for the "name:" prefix; store the stripped value only if its validator
accepts it. -/
def convert_css (css : String) : List (String × String) :=
  ((splitCharOn ';' css.toList).map String.mk).foldl
    (fun result piece0 =>
      (cssAttrs.foldl
        (fun (pr : List (String × String) × String) attr =>
          if headIs (attr ++ ":").toList pr.2.toList then
            let piece2 := String.mk (stripChars (pr.2.toList.drop (attr.length + 1)))
            if cssAttributeValidate attr piece2 then (aset pr.1 attr piece2, piece2)
            else (pr.1, piece2)
          else pr)
        (result, String.mk (stripChars piece0.toList))).1)
    []

/-- An element of the already-parsed XML tree: tag, ordered attribute
mapping, ordered children, text content (Python's `None` text modelled as
the empty string). -/
inductive Element where
  | mk (tag : String) (attrib : List (String × String)) (children : List Element) (text : String)

def Element.tag : Element → String
  | .mk t _ _ _ => t

def Element.attrib : Element → List (String × String)
  | .mk _ a _ _ => a

def Element.children : Element → List Element
  | .mk _ _ c _ => c

def Element.text : Element → String
  | .mk _ _ _ x => x

/-- Replace the attribute mapping of an element. -/
def Element.withAttrib : Element → List (String × String) → Element
  | .mk t _ c x, a => .mk t a c x

/-- The SVG namespace prefix `Parser._namespace`. -/
def svgNS : String := "\x7bhttp://www.w3.org/2000/svg\x7d"

/-- The tracked properties and their defaults of `Parser.inheritance`
(source lines 876-888), in the source dictionary's iteration order.  (The
source dictionary does NOT contain stroke-dashoffset.) -/
def trackedCss : List (String × String) :=
  [("font-family", "serif"), ("font-size", "12pt"), ("font-style", "normal"),
   ("font-weight", "400"), ("stroke-dasharray", ""), ("stroke-width", "0.35mm"),
   ("text-decoration", ""), ("text-decoration-line", ""),
   ("text-decoration-style", "solid"), ("text-transform", "none"), ("transform", "")]

/-- `str(float(.))` of the stroke-width special case of `inheritance`
(source line 855).  The model prints the rational exactly; Python prints the
shortest round-trip float text.  No claim depends on the printed digits. -/
def ratRepr (q : ℚ) : String :=
  toString q

/-- One step of the `for attribute in tracked_css` loop of
`Parser.inheritance` (source lines 889-892), threading (css, attrib). -/
def trackedStep (p : List (String × String) × List (String × String)) (kv : String × String) :
    List (String × String) × List (String × String) :=
  let css1 := if ahas p.2 kv.1 && !(ahas p.1 kv.1) then
      aset p.1 kv.1 ((p.2.lookup kv.1).getD "")
    else p.1
  (css1, aset p.2 kv.1 ((css1.lookup kv.1).getD kv.2))

/-- The child-update loop of `Parser.inheritance` (source lines 895-903):
every css entry is pushed onto the child, transform by string concatenation,
the others only when the child does not set them itself. -/
def applyCssToChild (css : List (String × String)) (child : Element) : Element :=
  css.foldl
    (fun ch p =>
      if p.1 = "transform" then
        let cur := if ahas ch.attrib "transform" then ch.attrib else aset ch.attrib "transform" ""
        ch.withAttrib (aset cur "transform" (p.2 ++ " " ++ ((cur.lookup "transform").getD "")))
      else if ahas ch.attrib p.1 then ch
      else ch.withAttrib (aset ch.attrib p.1 p.2))
    child

/-- Generic option-valued map over a list (`none` as soon as one element
maps to `none`). -/
def mapOpt (f : α → Option β) : List α → Option (List β)
  | [] => some []
  | a :: rest =>
    match f a, mapOpt f rest with
    | some b, some bs => some (b :: bs)
    | _, _ => none

/-- `Parser.inheritance`: seed the css map from the special-cased SVG
attributes, merge `<style>` child blocks then the `style` attribute, write
every tracked property into the element's attributes (with its default when
unset), and push the css onto each child before recursing.  The fuel bounds
the recursion depth (`none` = tree deeper than fuel). -/
def inheritanceF : ℕ → Element → Option Element
  | 0, _ => none
  | fuel + 1, e =>
    let a0 := e.attrib
    let css1 := if ahas a0 "transform" then aset [] "transform" ((a0.lookup "transform").getD "")
      else []
    let css2 := if ahas a0 "stroke-width" then
        match pyFloat? ((a0.lookup "stroke-width").getD "") with
        | some q => aset css1 "stroke-width" (ratRepr q)
        | none => css1
      else css1
    let css3 := if ahas a0 "stroke-dasharray" then
        aset css2 "stroke-dasharray" ((a0.lookup "stroke-dasharray").getD "")
      else css2
    let css4 := if ahas a0 "stroke-dashoffset" then
        aset css3 "stroke-dashoffset" ((a0.lookup "stroke-dashoffset").getD "")
      else css3
    let css5 := e.children.foldl
      (fun css c =>
        if String.mk (lowerChars c.tag.toList) = svgNS ++ "style" then
          aupdate css (convert_css c.text)
        else css)
      css4
    let ca :=
      if ahas a0 "style" then
        (aupdate css5 (convert_css ((a0.lookup "style").getD "")), adel a0 "style")
      else (css5, a0)
    let step := trackedCss.foldl trackedStep ca
    (mapOpt (fun c => inheritanceF fuel (applyCssToChild step.1 c)) e.children).map
      (fun children1 => Element.mk e.tag step.2 children1 e.text)

/-- The eleven property names actually tracked by the cascade. -/
def trackedKeys11 : List String := trackedCss.map Prod.fst

/-- Every node of the tree carries all eleven tracked properties. -/
inductive HasTracked : Element → Prop where
  | mk (t : String) (a : List (String × String)) (children : List Element) (x : String)
      (hkeys : ∀ k ∈ trackedKeys11, ahas a k = true)
      (hchildren : ∀ c ∈ children, HasTracked c) :
      HasTracked (Element.mk t a children x)

theorem ahas_aset_self (a : List (String × String)) (k v : String) :
    ahas (aset a k v) k = true := by
  induction a with
  | nil => simp [aset, ahas, List.lookup]
  | cons p rest ih =>
    obtain ⟨k0, v0⟩ := p
    rw [aset]
    split
    · rename_i h
      simp [ahas, List.lookup, h]
    · rename_i h
      have hne : (k == k0) = false := by
        simp only [beq_eq_false_iff_ne, ne_eq]
        intro hk
        exact h hk.symm
      simpa [ahas, List.lookup, hne] using ih

theorem ahas_aset_of_ahas (a : List (String × String)) (k' v k : String)
    (h : ahas a k = true) : ahas (aset a k' v) k = true := by
  induction a with
  | nil => simp [ahas, List.lookup] at h
  | cons p rest ih =>
    obtain ⟨k0, v0⟩ := p
    rw [aset]
    by_cases hbk : (k == k0) = true
    · split <;> simp [ahas, List.lookup, hbk]
    · have hrest : ahas rest k = true := by
        simpa [ahas, List.lookup, hbk] using h
      split
      · simpa [ahas, List.lookup, hbk] using hrest
      · simpa [ahas, List.lookup, hbk] using ih hrest

theorem trackedFold_has (kvs : List (String × String)) :
    ∀ (p : List (String × String) × List (String × String)) (k : String),
      (k ∈ kvs.map Prod.fst ∨ ahas p.2 k = true) →
      ahas (kvs.foldl trackedStep p).2 k = true := by
  induction kvs with
  | nil =>
    intro p k h
    rcases h with h | h
    · simp at h
    · simpa using h
  | cons kv kvs ih =>
    intro p k h
    simp only [List.foldl_cons]
    rcases h with h | h
    · simp only [List.map_cons, List.mem_cons] at h
      rcases h with h | h
      · subst h
        refine ih _ _ (Or.inr ?_)
        simp only [trackedStep]
        exact ahas_aset_self _ _ _
      · exact ih _ _ (Or.inl h)
    · refine ih _ _ (Or.inr ?_)
      simp only [trackedStep]
      exact ahas_aset_of_ahas _ _ _ _ h

theorem mapOpt_mem {α β : Type} {f : α → Option β} :
    ∀ {l : List α} {l' : List β}, mapOpt f l = some l' → ∀ b ∈ l', ∃ a ∈ l, f a = some b := by
  intro l
  induction l with
  | nil =>
    intro l' h b hb
    simp only [mapOpt, Option.some.injEq] at h
    subst h
    simp at hb
  | cons a rest ih =>
    intro l' h b hb
    rw [mapOpt] at h
    cases hfa : f a with
    | none => rw [hfa] at h; simp at h
    | some b0 =>
      cases hmr : mapOpt f rest with
      | none => rw [hfa, hmr] at h; simp at h
      | some bs =>
        rw [hfa, hmr] at h
        simp only [Option.some.injEq] at h
        subst h
        rcases List.mem_cons.mp hb with hb | hb
        · exact ⟨a, List.mem_cons_self _ _, by rw [hfa, hb]⟩
        · obtain ⟨a1, ha1, hfa1⟩ := ih hmr b hb
          exact ⟨a1, List.mem_cons_of_mem _ ha1, hfa1⟩

/-- Claim C3 (amended): after the cascade/inheritance pass, every element of
the tree carries a value for each of the ELEVEN tracked properties
font-family, font-size, font-style, font-weight, stroke-dasharray,
stroke-width, text-decoration, text-decoration-line, text-decoration-style,
text-transform and transform (with the documented defaults when unset);
stroke-dashoffset, the twelfth property of the claim, is NOT in the tracked
set and may be missing. -/
theorem c3_cascade_eleven_properties :
    ∀ (fuel : ℕ) (e e' : Element), inheritanceF fuel e = some e' → HasTracked e' := by
  intro fuel
  induction fuel with
  | zero => intro e e' h; simp [inheritanceF] at h
  | succ n ih =>
    intro e e' h
    rw [inheritanceF] at h
    simp only [Option.map_eq_some'] at h
    obtain ⟨children1, hmap, he⟩ := h
    subst he
    refine HasTracked.mk _ _ _ _ ?_ ?_
    · intro k hk
      exact trackedFold_has _ _ _ (Or.inl hk)
    · intro c hc
      obtain ⟨a, _, ha⟩ := mapOpt_mem hmap c hc
      exact ih _ _ ha

/-- Claim C3 (counterexample): a bare element with no attributes and no
children comes out of the cascade pass WITHOUT a stroke-dashoffset key (while
e.g. font-family is present), so not every key of the claim's twelve-property
set is present on every element. -/
theorem c3_counterexample :
    (inheritanceF 2 (Element.mk "g" [] [] "")).map
      (fun e => ahas e.attrib "stroke-dashoffset") = some false ∧
    (inheritanceF 2 (Element.mk "g" [] [] "")).map
      (fun e => ahas e.attrib "font-family") = some true := by
  constructor <;> with_unfolding_all decide

/-- The resolved element produced by the cascade on a bare "g" element. -/
def c3result : Element :=
  Element.mk "g"
    [("font-family", "serif"), ("font-size", "12pt"), ("font-style", "normal"),
     ("font-weight", "400"), ("stroke-dasharray", ""), ("stroke-width", "0.35mm"),
     ("text-decoration", ""), ("text-decoration-line", ""),
     ("text-decoration-style", "solid"), ("text-transform", "none"), ("transform", "")]
    [] ""

theorem c3_witness :
    inheritanceF 2 (Element.mk "g" [] [] "") = some c3result ∧ HasTracked c3result :=
  have hEq : inheritanceF 2 (Element.mk "g" [] [] "") = some c3result := by
    with_unfolding_all rfl
  ⟨hEq, c3_cascade_eleven_properties 2 _ _ hEq⟩

/-- A command letter of the path tokenizer's pattern
`[A-DF-Za-df-z]` (every ASCII letter except E/e, which appear in
exponents). -/
def isCmdLetter (c : Char) : Bool :=
  ('A' ≤ c ∧ c ≤ 'D') ∨ ('F' ≤ c ∧ c ≤ 'Z') ∨ ('a' ≤ c ∧ c ≤ 'd') ∨ ('f' ≤ c ∧ c ≤ 'z')

/-- Worker for `tokenizePath`, carrying the (reversed) token being built. -/
def tokenizePathGo : List Char → Option (List Char) → List (List Char)
  | [], cur =>
    match cur with
    | none => []
    | some t => [t.reverse]
  | c :: rest, cur =>
    if isCmdLetter c then
      match cur with
      | none => tokenizePathGo rest (some [c])
      | some t => t.reverse :: tokenizePathGo rest (some [c])
    else
      match cur with
      | none => tokenizePathGo rest none
      | some t => tokenizePathGo rest (some (c :: t))

/-- `re.findall(r"[A-DF-Za-df-z][^A-DF-Za-df-z]*", d)` of `parse_path`:
split the d attribute into single-letter commands with their parameter
text. -/
def tokenizePath (cs : List Char) : List (List Char) :=
  tokenizePathGo cs none

/-- `re.findall` of the number pattern over a parameter text: at each
position take the greedy number match or advance one character (fuel-bounded
by the text length, which always suffices). -/
def findNumbersF : ℕ → List Char → List ℚ
  | 0, _ => []
  | _ + 1, [] => []
  | n + 1, c :: rest =>
    match matchNumber (c :: rest) with
    | some (m, r) => ratOfNumChars m :: findNumbersF n r
    | none => findNumbersF n rest

/-- All numbers in a parameter text, in order. -/
def findNumbers (cs : List Char) : List ℚ :=
  findNumbersF cs.length cs

/-- The argument tuple of one `extrude_arc` call produced by the `A`/`a`
command loops of `parse_path`. -/
structure ArcSpec where
  start_x : ℚ
  start_y : ℚ
  rx : ℚ
  ry : ℚ
  rotation : ℚ
  large_arc : Bool
  sweep_flag : Bool
  end_x : ℚ
  end_y : ℚ
deriving DecidableEq, Repr

/-- The `A` (absolute elliptical arc) command loop of `parse_path` (source
lines 1085-1099): consume 7 parameters per arc, skip the group when a flag
parameter is neither 0 nor 1, convert the flags with `!= 0`, and advance the
current position to the group's endpoint.  Returns the arcs to draw and the
final position. -/
def arcGroupsA (uw uh : ℚ) : ℚ → ℚ → List ℚ → List ArcSpec × ℚ × ℚ
  | x, y, p0 :: p1 :: p2 :: p3 :: p4 :: p5 :: p6 :: rest =>
    if (p3 ≠ 0 ∧ p3 ≠ 1) ∨ (p4 ≠ 0 ∧ p4 ≠ 1) then
      arcGroupsA uw uh x y rest
    else
      let r := arcGroupsA uw uh (p5 * uw) (p6 * uh) rest
      (⟨x, y, p0 * uw, p1 * uh, p2, decide (p3 ≠ 0), decide (p4 ≠ 0), p5 * uw, p6 * uh⟩ :: r.1,
       r.2)
  | x, y, _ => ([], x, y)

/-- The `a` (relative elliptical arc) command loop of `parse_path` (source
lines 1100-1114). -/
def arcGroupsRel (uw uh : ℚ) : ℚ → ℚ → List ℚ → List ArcSpec × ℚ × ℚ
  | x, y, p0 :: p1 :: p2 :: p3 :: p4 :: p5 :: p6 :: rest =>
    if (p3 ≠ 0 ∧ p3 ≠ 1) ∨ (p4 ≠ 0 ∧ p4 ≠ 1) then
      arcGroupsRel uw uh x y rest
    else
      let r := arcGroupsRel uw uh (x + p5 * uw) (y + p6 * uh) rest
      (⟨x, y, p0 * uw, p1 * uh, p2, decide (p3 ≠ 0), decide (p4 ≠ 0),
        x + p5 * uw, y + p6 * uh⟩ :: r.1, r.2)
  | x, y, _ => ([], x, y)

/-- Draw a list of arcs in order, threading the parser state. -/
def foldArcs (fuel : ℕ) (ops : FloatOps) (w : ℚ) (t : Mat3) :
    PState → List ArcSpec → Option (List Cmd × PState)
  | st, [] => some ([], st)
  | st, a :: rest =>
    (extrude_arc fuel ops st a.start_x a.start_y a.rx a.ry a.rotation a.large_arc
        a.sweep_flag a.end_x a.end_y w t).bind fun r1 =>
    (foldArcs fuel ops w t r1.2 rest).bind fun r2 =>
    some (r1.1 ++ r2.1, r2.2)

/-- The `C` (absolute cubic) command loop of `parse_path` (source lines
1115-1126); carries and returns the previous-cubic-handle tracking.  Result:
(commands, state, x, y, previous_cubic_x, previous_cubic_y). -/
def processC (fuel : ℕ) (ops : FloatOps) (uw uh w : ℚ) (t : Mat3) :
    PState → ℚ → ℚ → ℚ → ℚ → List ℚ → Option (List Cmd × PState × ℚ × ℚ × ℚ × ℚ)
  | st, x, y, _, _, p0 :: p1 :: p2 :: p3 :: p4 :: p5 :: rest =>
    (extrude_cubic fuel ops st x y (p0 * uw) (p1 * uh) (p2 * uw) (p3 * uh)
        (p4 * uw) (p5 * uh) w t).bind fun r1 =>
    (processC fuel ops uw uh w t r1.2 (p4 * uw) (p5 * uh) (p2 * uw) (p3 * uh) rest).bind fun r2 =>
    some (r1.1 ++ r2.1, r2.2)
  | st, x, y, pcx, pcy, _ => some ([], st, x, y, pcx, pcy)

/-- The `c` (relative cubic) command loop of `parse_path` (source lines
1127-1138). -/
def processCrel (fuel : ℕ) (ops : FloatOps) (uw uh w : ℚ) (t : Mat3) :
    PState → ℚ → ℚ → ℚ → ℚ → List ℚ → Option (List Cmd × PState × ℚ × ℚ × ℚ × ℚ)
  | st, x, y, _, _, p0 :: p1 :: p2 :: p3 :: p4 :: p5 :: rest =>
    (extrude_cubic fuel ops st x y (x + p0 * uw) (y + p1 * uh) (x + p2 * uw) (y + p3 * uh)
        (x + p4 * uw) (y + p5 * uh) w t).bind fun r1 =>
    (processCrel fuel ops uw uh w t r1.2 (x + p4 * uw) (y + p5 * uh)
        (x + p2 * uw) (y + p3 * uh) rest).bind fun r2 =>
    some (r1.1 ++ r2.1, r2.2)
  | st, x, y, pcx, pcy, _ => some ([], st, x, y, pcx, pcy)

/-- The `S` (smooth absolute cubic) command loop of `parse_path` (source
lines 1183-1197): the first handle mirrors the previous cubic handle about
the current position. -/
def processS (fuel : ℕ) (ops : FloatOps) (uw uh w : ℚ) (t : Mat3) :
    PState → ℚ → ℚ → ℚ → ℚ → List ℚ → Option (List Cmd × PState × ℚ × ℚ × ℚ × ℚ)
  | st, x, y, pcx, pcy, p0 :: p1 :: p2 :: p3 :: rest =>
    (extrude_cubic fuel ops st x y (x + (x - pcx)) (y + (y - pcy)) (p0 * uw) (p1 * uh)
        (p2 * uw) (p3 * uh) w t).bind fun r1 =>
    (processS fuel ops uw uh w t r1.2 (p2 * uw) (p3 * uh) (p0 * uw) (p1 * uh) rest).bind fun r2 =>
    some (r1.1 ++ r2.1, r2.2)
  | st, x, y, pcx, pcy, _ => some ([], st, x, y, pcx, pcy)

/-- The `s` (smooth relative cubic) command loop of `parse_path` (source
lines 1198-1212). -/
def processSrel (fuel : ℕ) (ops : FloatOps) (uw uh w : ℚ) (t : Mat3) :
    PState → ℚ → ℚ → ℚ → ℚ → List ℚ → Option (List Cmd × PState × ℚ × ℚ × ℚ × ℚ)
  | st, x, y, pcx, pcy, p0 :: p1 :: p2 :: p3 :: rest =>
    (extrude_cubic fuel ops st x y (x + (x - pcx)) (y + (y - pcy)) (x + p0 * uw) (y + p1 * uh)
        (x + p2 * uw) (y + p3 * uh) w t).bind fun r1 =>
    (processSrel fuel ops uw uh w t r1.2 (x + p2 * uw) (y + p3 * uh)
        (x + p0 * uw) (y + p1 * uh) rest).bind fun r2 =>
    some (r1.1 ++ r2.1, r2.2)
  | st, x, y, pcx, pcy, _ => some ([], st, x, y, pcx, pcy)

/-- The `Q` (absolute quadratic) command loop of `parse_path` (source lines
1161-1171); carries and returns the previous-quadratic-handle tracking. -/
def processQ (fuel : ℕ) (ops : FloatOps) (uw uh w : ℚ) (t : Mat3) :
    PState → ℚ → ℚ → ℚ → ℚ → List ℚ → Option (List Cmd × PState × ℚ × ℚ × ℚ × ℚ)
  | st, x, y, _, _, p0 :: p1 :: p2 :: p3 :: rest =>
    (extrude_quadratic fuel ops st x y (p0 * uw) (p1 * uh) (p2 * uw) (p3 * uh) w t).bind fun r1 =>
    (processQ fuel ops uw uh w t r1.2 (p2 * uw) (p3 * uh) (p0 * uw) (p1 * uh) rest).bind fun r2 =>
    some (r1.1 ++ r2.1, r2.2)
  | st, x, y, pqx, pqy, _ => some ([], st, x, y, pqx, pqy)

/-- The `q` (relative quadratic) command loop of `parse_path` (source lines
1172-1182). -/
def processQrel (fuel : ℕ) (ops : FloatOps) (uw uh w : ℚ) (t : Mat3) :
    PState → ℚ → ℚ → ℚ → ℚ → List ℚ → Option (List Cmd × PState × ℚ × ℚ × ℚ × ℚ)
  | st, x, y, _, _, p0 :: p1 :: p2 :: p3 :: rest =>
    (extrude_quadratic fuel ops st x y (x + p0 * uw) (y + p1 * uh) (x + p2 * uw) (y + p3 * uh)
        w t).bind fun r1 =>
    (processQrel fuel ops uw uh w t r1.2 (x + p2 * uw) (y + p3 * uh)
        (x + p0 * uw) (y + p1 * uh) rest).bind fun r2 =>
    some (r1.1 ++ r2.1, r2.2)
  | st, x, y, pqx, pqy, _ => some ([], st, x, y, pqx, pqy)

/-- The `T` (smooth absolute quadratic) command loop of `parse_path` (source
lines 1213-1224): the handle mirrors the previous quadratic handle about the
current position, and the mirrored handle becomes the new previous handle. -/
def processT (fuel : ℕ) (ops : FloatOps) (uw uh w : ℚ) (t : Mat3) :
    PState → ℚ → ℚ → ℚ → ℚ → List ℚ → Option (List Cmd × PState × ℚ × ℚ × ℚ × ℚ)
  | st, x, y, pqx, pqy, p0 :: p1 :: rest =>
    (extrude_quadratic fuel ops st x y (x + (x - pqx)) (y + (y - pqy)) (p0 * uw) (p1 * uh)
        w t).bind fun r1 =>
    (processT fuel ops uw uh w t r1.2 (p0 * uw) (p1 * uh) (x + (x - pqx)) (y + (y - pqy))
        rest).bind fun r2 =>
    some (r1.1 ++ r2.1, r2.2)
  | st, x, y, pqx, pqy, _ => some ([], st, x, y, pqx, pqy)

/-- The `t` (smooth relative quadratic) command loop of `parse_path` (source
lines 1225-1236). -/
def processTrel (fuel : ℕ) (ops : FloatOps) (uw uh w : ℚ) (t : Mat3) :
    PState → ℚ → ℚ → ℚ → ℚ → List ℚ → Option (List Cmd × PState × ℚ × ℚ × ℚ × ℚ)
  | st, x, y, pqx, pqy, p0 :: p1 :: rest =>
    (extrude_quadratic fuel ops st x y (x + (x - pqx)) (y + (y - pqy)) (x + p0 * uw)
        (y + p1 * uh) w t).bind fun r1 =>
    (processTrel fuel ops uw uh w t r1.2 (x + p0 * uw) (y + p1 * uh)
        (x + (x - pqx)) (y + (y - pqy)) rest).bind fun r2 =>
    some (r1.1 ++ r2.1, r2.2)
  | st, x, y, pqx, pqy, _ => some ([], st, x, y, pqx, pqy)

/-- The `H`/`h`/`V`/`v` one-parameter line loops of `parse_path` (source
lines 1139-1148 and 1237-1246), selected by axis and absolute/relative
flags. -/
def processHV (fuel : ℕ) (ops : FloatOps) (unit : ℚ) (w : ℚ) (t : Mat3)
    (horizontal relative : Bool) :
    PState → ℚ → ℚ → List ℚ → Option (List Cmd × PState × ℚ × ℚ)
  | st, x, y, p0 :: rest =>
    let nx := if horizontal then (if relative then x + p0 * unit else p0 * unit) else x
    let ny := if horizontal then y else (if relative then y + p0 * unit else p0 * unit)
    (extrude_line fuel ops st x y nx ny w t).bind fun r1 =>
    (processHV fuel ops unit w t horizontal relative r1.2 nx ny rest).bind fun r2 =>
    some (r1.1 ++ r2.1, r2.2)
  | st, x, y, [] => some ([], st, x, y)

/-- The `L` (absolute line) command loop of `parse_path` (source lines
1149-1154). -/
def processL (fuel : ℕ) (ops : FloatOps) (uw uh w : ℚ) (t : Mat3) :
    PState → ℚ → ℚ → List ℚ → Option (List Cmd × PState × ℚ × ℚ)
  | st, x, y, p0 :: p1 :: rest =>
    (extrude_line fuel ops st x y (p0 * uw) (p1 * uh) w t).bind fun r1 =>
    (processL fuel ops uw uh w t r1.2 (p0 * uw) (p1 * uh) rest).bind fun r2 =>
    some (r1.1 ++ r2.1, r2.2)
  | st, x, y, _ => some ([], st, x, y)

/-- The `l` (relative line) command loop of `parse_path` (source lines
1155-1160). -/
def processLrel (fuel : ℕ) (ops : FloatOps) (uw uh w : ℚ) (t : Mat3) :
    PState → ℚ → ℚ → List ℚ → Option (List Cmd × PState × ℚ × ℚ)
  | st, x, y, p0 :: p1 :: rest =>
    (extrude_line fuel ops st x y (x + p0 * uw) (y + p1 * uh) w t).bind fun r1 =>
    (processLrel fuel ops uw uh w t r1.2 (x + p0 * uw) (y + p1 * uh) rest).bind fun r2 =>
    some (r1.1 ++ r2.1, r2.2)
  | st, x, y, _ => some ([], st, x, y)

/-- The running state of the path-command state machine of `parse_path`:
emitted commands, parser state, current point, subpath start, previous
quadratic and cubic control points. -/
structure PathAcc where
  cmds : List Cmd
  st : PState
  x : ℚ
  y : ℚ
  start_x : ℚ
  start_y : ℚ
  pqx : ℚ
  pqy : ℚ
  pcx : ℚ
  pcy : ℚ
deriving DecidableEq, Repr

/-- Process one tokenized path command (source lines 1053-1259): the
`M`/`m` pre-step (reinterpreting extra pairs as lines and resetting the dash
offset), the per-letter dispatch, and the trailing control-point resets for
non-`Q/q/T/t` and non-`C/c/S/s` commands. -/
def processPathCommand (fuel : ℕ) (ops : FloatOps) (w : ℚ) (t : Mat3) (uw uh ofs : ℚ)
    (acc : PathAcc) (token : List Char) : Option PathAcc :=
  match stripChars token with
  | [] => some acc
  | c0 :: body =>
    let params0 := findNumbers body
    if (c0 = 'M' ∨ c0 = 'm') ∧ params0.length < 2 then some acc
    else
      let mstep : Char × List ℚ × PathAcc :=
        if c0 = 'M' then
          let nx := params0.getD 0 0 * uw
          let ny := params0.getD 1 0 * uh
          ('L', params0.drop 2,
           { acc with cmds := acc.cmds ++ travel acc.st nx ny t,
                      st := { acc.st with dasharray_offset := ofs },
                      x := nx, y := ny, start_x := nx, start_y := ny })
        else if c0 = 'm' then
          let nx := acc.x + params0.getD 0 0 * uw
          let ny := acc.y + params0.getD 1 0 * uh
          ('l', params0.drop 2,
           { acc with cmds := acc.cmds ++ travel acc.st nx ny t,
                      st := { acc.st with dasharray_offset := ofs },
                      x := nx, y := ny, start_x := nx, start_y := ny })
        else (c0, params0, acc)
      let name := mstep.1
      let params := mstep.2.1
      let acc1 := mstep.2.2
      (if name = 'A' then
        let g := arcGroupsA uw uh acc1.x acc1.y params
        (foldArcs fuel ops w t acc1.st g.1).map fun r =>
          { acc1 with cmds := acc1.cmds ++ r.1, st := r.2, x := g.2.1, y := g.2.2 }
      else if name = 'a' then
        let g := arcGroupsRel uw uh acc1.x acc1.y params
        (foldArcs fuel ops w t acc1.st g.1).map fun r =>
          { acc1 with cmds := acc1.cmds ++ r.1, st := r.2, x := g.2.1, y := g.2.2 }
      else if name = 'C' then
        (processC fuel ops uw uh w t acc1.st acc1.x acc1.y acc1.pcx acc1.pcy params).map fun r =>
          { acc1 with cmds := acc1.cmds ++ r.1, st := r.2.1, x := r.2.2.1, y := r.2.2.2.1,
                      pcx := r.2.2.2.2.1, pcy := r.2.2.2.2.2 }
      else if name = 'c' then
        (processCrel fuel ops uw uh w t acc1.st acc1.x acc1.y acc1.pcx acc1.pcy params).map fun r =>
          { acc1 with cmds := acc1.cmds ++ r.1, st := r.2.1, x := r.2.2.1, y := r.2.2.2.1,
                      pcx := r.2.2.2.2.1, pcy := r.2.2.2.2.2 }
      else if name = 'H' then
        (processHV fuel ops uw w t true false acc1.st acc1.x acc1.y params).map fun r =>
          { acc1 with cmds := acc1.cmds ++ r.1, st := r.2.1, x := r.2.2.1, y := r.2.2.2 }
      else if name = 'h' then
        (processHV fuel ops uw w t true true acc1.st acc1.x acc1.y params).map fun r =>
          { acc1 with cmds := acc1.cmds ++ r.1, st := r.2.1, x := r.2.2.1, y := r.2.2.2 }
      else if name = 'L' then
        (processL fuel ops uw uh w t acc1.st acc1.x acc1.y params).map fun r =>
          { acc1 with cmds := acc1.cmds ++ r.1, st := r.2.1, x := r.2.2.1, y := r.2.2.2 }
      else if name = 'l' then
        (processLrel fuel ops uw uh w t acc1.st acc1.x acc1.y params).map fun r =>
          { acc1 with cmds := acc1.cmds ++ r.1, st := r.2.1, x := r.2.2.1, y := r.2.2.2 }
      else if name = 'Q' then
        (processQ fuel ops uw uh w t acc1.st acc1.x acc1.y acc1.pqx acc1.pqy params).map fun r =>
          { acc1 with cmds := acc1.cmds ++ r.1, st := r.2.1, x := r.2.2.1, y := r.2.2.2.1,
                      pqx := r.2.2.2.2.1, pqy := r.2.2.2.2.2 }
      else if name = 'q' then
        (processQrel fuel ops uw uh w t acc1.st acc1.x acc1.y acc1.pqx acc1.pqy params).map fun r =>
          { acc1 with cmds := acc1.cmds ++ r.1, st := r.2.1, x := r.2.2.1, y := r.2.2.2.1,
                      pqx := r.2.2.2.2.1, pqy := r.2.2.2.2.2 }
      else if name = 'S' then
        (processS fuel ops uw uh w t acc1.st acc1.x acc1.y acc1.pcx acc1.pcy params).map fun r =>
          { acc1 with cmds := acc1.cmds ++ r.1, st := r.2.1, x := r.2.2.1, y := r.2.2.2.1,
                      pcx := r.2.2.2.2.1, pcy := r.2.2.2.2.2 }
      else if name = 's' then
        (processSrel fuel ops uw uh w t acc1.st acc1.x acc1.y acc1.pcx acc1.pcy params).map fun r =>
          { acc1 with cmds := acc1.cmds ++ r.1, st := r.2.1, x := r.2.2.1, y := r.2.2.2.1,
                      pcx := r.2.2.2.2.1, pcy := r.2.2.2.2.2 }
      else if name = 'T' then
        (processT fuel ops uw uh w t acc1.st acc1.x acc1.y acc1.pqx acc1.pqy params).map fun r =>
          { acc1 with cmds := acc1.cmds ++ r.1, st := r.2.1, x := r.2.2.1, y := r.2.2.2.1,
                      pqx := r.2.2.2.2.1, pqy := r.2.2.2.2.2 }
      else if name = 't' then
        (processTrel fuel ops uw uh w t acc1.st acc1.x acc1.y acc1.pqx acc1.pqy params).map fun r =>
          { acc1 with cmds := acc1.cmds ++ r.1, st := r.2.1, x := r.2.2.1, y := r.2.2.2.1,
                      pqx := r.2.2.2.2.1, pqy := r.2.2.2.2.2 }
      else if name = 'V' then
        (processHV fuel ops uh w t false false acc1.st acc1.x acc1.y params).map fun r =>
          { acc1 with cmds := acc1.cmds ++ r.1, st := r.2.1, x := r.2.2.1, y := r.2.2.2 }
      else if name = 'v' then
        (processHV fuel ops uh w t false true acc1.st acc1.x acc1.y params).map fun r =>
          { acc1 with cmds := acc1.cmds ++ r.1, st := r.2.1, x := r.2.2.1, y := r.2.2.2 }
      else if name = 'Z' ∨ name = 'z' then
        (extrude_line fuel ops acc1.st acc1.x acc1.y acc1.start_x acc1.start_y w t).map fun r =>
          { acc1 with cmds := acc1.cmds ++ r.1, st := r.2, x := acc1.start_x, y := acc1.start_y }
      else some acc1).map fun acc2 =>
        let acc3 := if name ≠ 'Q' ∧ name ≠ 'q' ∧ name ≠ 'T' ∧ name ≠ 't' then
            { acc2 with pqx := acc2.x, pqy := acc2.y }
          else acc2
        if name ≠ 'C' ∧ name ≠ 'c' ∧ name ≠ 'S' ∧ name ≠ 's' then
          { acc3 with pcx := acc3.x, pcy := acc3.y }
        else acc3

/-- Fold the path commands left to right. -/
def foldTokens (fuel : ℕ) (ops : FloatOps) (w : ℚ) (t : Mat3) (uw uh ofs : ℚ) :
    PathAcc → List (List Char) → Option PathAcc
  | acc, [] => some acc
  | acc, tok :: rest =>
    (processPathCommand fuel ops w t uw uh ofs acc tok).bind fun acc1 =>
    foldTokens fuel ops w t uw uh ofs acc1 rest

/-- `Parser.parse_path`: resolve stroke attributes, clean the d attribute,
tokenize it and run the command state machine. -/
def parse_path (fuel : ℕ) (ops : FloatOps) (st : PState) (e : Element) :
    Option (List Cmd × PState) :=
  let line_width := convert_length st ((e.attrib.lookup "stroke-width").getD "0.35mm")
  (convert_transform ops ((e.attrib.lookup "transform").getD "")).bind fun t =>
  let st1 := convert_dasharray st ((e.attrib.lookup "stroke-dasharray").getD "")
  let ofs := convert_length st1 ((e.attrib.lookup "stroke-dashoffset").getD "0")
  let d := stripChars (replaceChar ',' [' '] ((e.attrib.lookup "d").getD "").toList)
  (foldTokens fuel ops line_width t st1.unit_w st1.unit_h ofs
      ⟨[], st1, 0, 0, 0, 0, 0, 0, 0, 0⟩ (tokenizePath d)).map fun acc =>
    (acc.cmds, acc.st)

/-- `Parser.convert_points`: normalise separators, drop an unpaired trailing
coordinate, and keep only pairs in which both coordinates parse as floats. -/
def pairUpPoints : List (List Char) → List (ℚ × ℚ)
  | a :: b :: rest =>
    match pyFloat? (String.mk a), pyFloat? (String.mk b) with
    | some qa, some qb => (qa, qb) :: pairUpPoints rest
    | _, _ => pairUpPoints rest
  | _ => []

def convert_points (points : String) : List (ℚ × ℚ) :=
  let cs := replaceChar ',' [' '] points.toList
  let cs := collapseDoubleSpaces cs.length cs
  let cs := stripChars cs
  let parts := splitWsChars cs
  let parts := if parts.length % 2 ≠ 0 then parts.dropLast else parts
  pairUpPoints parts

/-- `Parser.parse_circle`. -/
def parse_circle (fuel : ℕ) (ops : FloatOps) (st : PState) (e : Element) :
    Option (List Cmd × PState) :=
  let cx := convert_length st ((e.attrib.lookup "cx").getD "0")
  let cy := convert_length st ((e.attrib.lookup "cy").getD "0") true
  let r := convert_length st ((e.attrib.lookup "r").getD "0")
  if r = 0 then some ([], st)
  else
    let w := convert_length st ((e.attrib.lookup "stroke-width").getD "0.35mm")
    (convert_transform ops ((e.attrib.lookup "transform").getD "")).bind fun t =>
    let st1 := convert_dasharray st ((e.attrib.lookup "stroke-dasharray").getD "")
    let st2 := { st1 with
      dasharray_offset := convert_length st1 ((e.attrib.lookup "stroke-dashoffset").getD "0") }
    (extrude_arc fuel ops st2 (cx + r) cy r r 0 false false cx (cy - r) w t).bind fun a1 =>
    (extrude_arc fuel ops a1.2 cx (cy - r) r r 0 false false (cx - r) cy w t).bind fun a2 =>
    (extrude_arc fuel ops a2.2 (cx - r) cy r r 0 false false cx (cy + r) w t).bind fun a3 =>
    (extrude_arc fuel ops a3.2 cx (cy + r) r r 0 false false (cx + r) cy w t).bind fun a4 =>
    some (travel st2 (cx + r) cy t ++ a1.1 ++ a2.1 ++ a3.1 ++ a4.1, a4.2)

/-- `Parser.parse_ellipse`. -/
def parse_ellipse (fuel : ℕ) (ops : FloatOps) (st : PState) (e : Element) :
    Option (List Cmd × PState) :=
  let cx := convert_length st ((e.attrib.lookup "cx").getD "0")
  let cy := convert_length st ((e.attrib.lookup "cy").getD "0") true
  let rx := convert_length st ((e.attrib.lookup "rx").getD "0")
  if rx = 0 then some ([], st)
  else
    let ry := convert_length st ((e.attrib.lookup "ry").getD "0") true
    if ry = 0 then some ([], st)
    else
      let w := convert_length st ((e.attrib.lookup "stroke-width").getD "0.35mm")
      (convert_transform ops ((e.attrib.lookup "transform").getD "")).bind fun t =>
      let st1 := convert_dasharray st ((e.attrib.lookup "stroke-dasharray").getD "")
      let st2 := { st1 with
        dasharray_offset := convert_length st1 ((e.attrib.lookup "stroke-dashoffset").getD "0") }
      (extrude_arc fuel ops st2 (cx + rx) cy rx ry 0 false false cx (cy - ry) w t).bind fun a1 =>
      (extrude_arc fuel ops a1.2 cx (cy - ry) rx ry 0 false false (cx - rx) cy w t).bind fun a2 =>
      (extrude_arc fuel ops a2.2 (cx - rx) cy rx ry 0 false false cx (cy + ry) w t).bind fun a3 =>
      (extrude_arc fuel ops a3.2 cx (cy + ry) rx ry 0 false false (cx + rx) cy w t).bind fun a4 =>
      some (travel st2 (cx + rx) cy t ++ a1.1 ++ a2.1 ++ a3.1 ++ a4.1, a4.2)

/-- `Parser.parse_line`. -/
def parse_line (fuel : ℕ) (ops : FloatOps) (st : PState) (e : Element) :
    Option (List Cmd × PState) :=
  let w := convert_length st ((e.attrib.lookup "stroke-width").getD "0.35mm")
  (convert_transform ops ((e.attrib.lookup "transform").getD "")).bind fun t =>
  let st1 := convert_dasharray st ((e.attrib.lookup "stroke-dasharray").getD "")
  let st2 := { st1 with
    dasharray_offset := convert_length st1 ((e.attrib.lookup "stroke-dashoffset").getD "0") }
  let x1 := convert_length st2 ((e.attrib.lookup "x1").getD "0")
  let y1 := convert_length st2 ((e.attrib.lookup "y1").getD "0") true
  let x2 := convert_length st2 ((e.attrib.lookup "x2").getD "0")
  let y2 := convert_length st2 ((e.attrib.lookup "y2").getD "0") true
  (extrude_line fuel ops st2 x1 y1 x2 y2 w t).map fun r =>
    (travel st2 x1 y1 t ++ r.1, r.2)

/-- The vertex loop shared by `parse_polygon` / `parse_polyline`: extrude to
each further point, returning the final position. -/
def polyLoop (fuel : ℕ) (ops : FloatOps) (w : ℚ) (t : Mat3) (uw uh : ℚ) :
    PState → ℚ → ℚ → List (ℚ × ℚ) → Option (List Cmd × PState × ℚ × ℚ)
  | st, prev_x, prev_y, [] => some ([], st, prev_x, prev_y)
  | st, prev_x, prev_y, (px, py) :: rest =>
    (extrude_line fuel ops st prev_x prev_y (px * uw) (py * uh) w t).bind fun r1 =>
    (polyLoop fuel ops w t uw uh r1.2 (px * uw) (py * uh) rest).bind fun r2 =>
    some (r1.1 ++ r2.1, r2.2)

/-- `Parser.parse_polygon` (closes back to the first point). -/
def parse_polygon (fuel : ℕ) (ops : FloatOps) (st : PState) (e : Element) :
    Option (List Cmd × PState) :=
  let w := convert_length st ((e.attrib.lookup "stroke-width").getD "0.35mm")
  (convert_transform ops ((e.attrib.lookup "transform").getD "")).bind fun t =>
  let st1 := convert_dasharray st ((e.attrib.lookup "stroke-dasharray").getD "")
  let st2 := { st1 with
    dasharray_offset := convert_length st1 ((e.attrib.lookup "stroke-dashoffset").getD "0") }
  match convert_points ((e.attrib.lookup "points").getD "") with
  | [] => some ([], st2)
  | (px, py) :: rest =>
    let fx := px * st2.unit_w
    let fy := py * st2.unit_h
    (polyLoop fuel ops w t st2.unit_w st2.unit_h st2 fx fy rest).bind fun r =>
    (extrude_line fuel ops r.2.1 r.2.2.1 r.2.2.2 fx fy w t).bind fun rc =>
    some (travel st2 fx fy t ++ r.1 ++ rc.1, rc.2)

/-- `Parser.parse_polyline` (does not close). -/
def parse_polyline (fuel : ℕ) (ops : FloatOps) (st : PState) (e : Element) :
    Option (List Cmd × PState) :=
  let w := convert_length st ((e.attrib.lookup "stroke-width").getD "0.35mm")
  (convert_transform ops ((e.attrib.lookup "transform").getD "")).bind fun t =>
  let st1 := convert_dasharray st ((e.attrib.lookup "stroke-dasharray").getD "")
  let st2 := { st1 with
    dasharray_offset := convert_length st1 ((e.attrib.lookup "stroke-dashoffset").getD "0") }
  match convert_points ((e.attrib.lookup "points").getD "") with
  | [] => some ([], st2)
  | (px, py) :: rest =>
    let fx := px * st2.unit_w
    let fy := py * st2.unit_h
    (polyLoop fuel ops w t st2.unit_w st2.unit_h st2 fx fy rest).map fun r =>
    (travel st2 fx fy t ++ r.1, r.2.1)

/-- `Parser.parse_rect`: four edges and four corner arcs, corner radii
clamped to half the rectangle's size. -/
def parse_rect (fuel : ℕ) (ops : FloatOps) (st : PState) (e : Element) :
    Option (List Cmd × PState) :=
  let x := convert_length st ((e.attrib.lookup "x").getD "0")
  let y := convert_length st ((e.attrib.lookup "y").getD "0") true
  let rx0 := convert_length st ((e.attrib.lookup "rx").getD "0")
  let ry0 := convert_length st ((e.attrib.lookup "ry").getD "0") true
  let width := convert_length st ((e.attrib.lookup "width").getD "0")
  let height := convert_length st ((e.attrib.lookup "height").getD "0") true
  let w := convert_length st ((e.attrib.lookup "stroke-width").getD "0.35mm")
  (convert_transform ops ((e.attrib.lookup "transform").getD "")).bind fun t =>
  let st1 := convert_dasharray st ((e.attrib.lookup "stroke-dasharray").getD "")
  let st2 := { st1 with
    dasharray_offset := convert_length st1 ((e.attrib.lookup "stroke-dashoffset").getD "0") }
  if width = 0 ∨ height = 0 then some ([], st2)
  else
    let rx := min rx0 (width / 2)
    let ry := min ry0 (height / 2)
    (extrude_line fuel ops st2 (x + rx) y (x + width - rx) y w t).bind fun r1 =>
    (extrude_arc fuel ops r1.2 (x + width - rx) y rx ry 0 false true (x + width) (y + ry)
        w t).bind fun r2 =>
    (extrude_line fuel ops r2.2 (x + width) (y + ry) (x + width) (y + height - ry) w t).bind fun r3 =>
    (extrude_arc fuel ops r3.2 (x + width) (y + height - ry) rx ry 0 false true (x + width - rx)
        (y + height) w t).bind fun r4 =>
    (extrude_line fuel ops r4.2 (x + width - rx) (y + height) (x + rx) (y + height) w t).bind fun r5 =>
    (extrude_arc fuel ops r5.2 (x + rx) (y + height) rx ry 0 false true x (y + height - ry)
        w t).bind fun r6 =>
    (extrude_line fuel ops r6.2 x (y + height - ry) x (y + ry) w t).bind fun r7 =>
    (extrude_arc fuel ops r7.2 x (y + ry) rx ry 0 false true (x + rx) y w t).bind fun r8 =>
    some (travel st2 (x + rx) y t ++ r1.1 ++ r2.1 ++ r3.1 ++ r4.1 ++ r5.1 ++ r6.1 ++ r7.1 ++ r8.1,
          r8.2)

/-- Concatenate the commands of a sequence of children, threading state. -/
def foldChildren (parseF : PState → Element → Option (List Cmd × PState)) :
    PState → List Element → Option (List Cmd × PState)
  | st, [] => some ([], st)
  | st, c :: rest =>
    (parseF st c).bind fun r1 =>
    (foldChildren parseF r1.2 rest).bind fun r2 =>
    some (r1.1 ++ r2.1, r2.2)

/-- `Parser.parse_svg`: re-scope the viewport from viewBox/width/height
(viewBox floats are assigned one by one, stopping at the first bad one, as
the source's try block does) and parse the children.  The parent scope is
NOT restored afterwards, as in the source. -/
def parse_svg (parseF : PState → Element → Option (List Cmd × PState)) (st : PState)
    (e : Element) : Option (List Cmd × PState) :=
  let st1 :=
    match e.attrib.lookup "viewBox" with
    | none => st
    | some vb =>
      let parts := (splitWsChars vb.toList).map String.mk
      if parts.length = 4 then
        match pyFloat? (parts.getD 0 "") with
        | none => st
        | some v0 =>
          match pyFloat? (parts.getD 1 "") with
          | none => { st with viewport_x := v0 }
          | some v1 =>
            match pyFloat? (parts.getD 2 "") with
            | none => { st with viewport_x := v0, viewport_y := v1 }
            | some v2 =>
              match pyFloat? (parts.getD 3 "") with
              | none => { st with viewport_x := v0, viewport_y := v1, viewport_w := v2 }
              | some v3 =>
                { st with viewport_x := v0, viewport_y := v1, viewport_w := v2, viewport_h := v3 }
      else st
  let iw := convert_length st1 ((e.attrib.lookup "width").getD "100%")
  let stW := { st1 with image_w := iw }
  let ih := convert_length stW ((e.attrib.lookup "height").getD "100%") true
  let stH := { stW with image_h := ih }
  let st2 := { stH with unit_w := stH.image_w / stH.viewport_w,
                        unit_h := stH.image_h / stH.viewport_h }
  foldChildren parseF st2 e.children

/-- The `supported_features` set literal of `Parser.parse_switch` (source
lines 1385-1402).  The last seven entries of the source have no separating
commas, so Python's implicit string concatenation makes them ONE element;
the model reproduces that faithfully. -/
def supportedFeatures : List String :=
  ["",
   "http://www.w3.org/TR/SVG11/feature#SVG",
   "http://www.w3.org/TR/SVG11/feature#SVGDOM",
   "http://www.w3.org/TR/SVG11/feature#SVG-static",
   "http://www.w3.org/TR/SVG11/feature#SVGDOM-static",
   "http://www.w3.org/TR/SVG11/feature#CoreAttribute",
   "http://www.w3.org/TR/SVG11/feature#Structure",
   "http://www.w3.org/TR/SVG11/feature#BasicStructure",
   "http://www.w3.org/TR/SVG11/feature#ConditionalProcessing",
   "http://www.w3.org/TR/SVG11/feature#Stylehttp://www.w3.org/TR/SVG11/feature#Shapehttp://www.w3.org/TR/SVG11/feature#BasicTexthttp://www.w3.org/TR/SVG11/feature#PaintAttributehttp://www.w3.org/TR/SVG11/feature#BasicPaintAttributehttp://www.w3.org/TR/SVG11/feature#ColorProfilehttp://www.w3.org/TR/SVG11/feature#Gradient"]

/-- The requiredFeatures attribute of an element, split on commas and
stripped (the source builds a set; only membership is ever used). -/
def requiredFeaturesList (e : Element) : List String :=
  (splitCharOn ',' ((e.attrib.lookup "requiredFeatures").getD "").toList).map
    (fun f => String.mk (stripChars f))

/-- `Parser.parse_switch`: if some required feature is unsupported
(`required - supported` nonempty) emit nothing; otherwise parse ALL
children. -/
def parse_switch (parseF : PState → Element → Option (List Cmd × PState)) (st : PState)
    (e : Element) : Option (List Cmd × PState) :=
  if (requiredFeaturesList e).all (fun f => supportedFeatures.contains f) then
    foldChildren parseF st e.children
  else some ([], st)

/-- `Parser.parse`: the element dispatcher.  Elements outside the SVG
namespace and unknown tags emit nothing; `defs` is skipped.  Text rendering
(`parse_text`) depends on the external FreeType font machinery, which the
spec scopes out of the core, so it is taken as a handler parameter.  The
fuel bounds the recursion depth into `g`/`svg`/`switch` containers. -/
def parse (fuel : ℕ) (ops : FloatOps)
    (textHandler : PState → Element → Option (List Cmd × PState)) (st : PState)
    (e : Element) : Option (List Cmd × PState) :=
  match fuel with
  | 0 => none
  | n + 1 =>
    if ¬ headIs svgNS.toList (lowerChars e.tag.toList) then some ([], st)
    else
      let tag := String.mk (lowerChars (e.tag.toList.drop svgNS.toList.length))
      if tag = "circle" then parse_circle n ops st e
      else if tag = "defs" then some ([], st)
      else if tag = "ellipse" then parse_ellipse n ops st e
      else if tag = "g" then
        foldChildren (fun st1 c => parse n ops textHandler st1 c) st e.children
      else if tag = "line" then parse_line n ops st e
      else if tag = "path" then parse_path n ops st e
      else if tag = "polygon" then parse_polygon n ops st e
      else if tag = "polyline" then parse_polyline n ops st e
      else if tag = "rect" then parse_rect n ops st e
      else if tag = "svg" then parse_svg (fun st1 c => parse n ops textHandler st1 c) st e
      else if tag = "switch" then parse_switch (fun st1 c => parse n ops textHandler st1 c) st e
      else if tag = "text" then textHandler st e
      else some ([], st)

/-- Claim C6: the A and a path command loops both consume exactly 7 numeric
parameters per arc group (fewer than 7 remaining parameters are dropped);
a group whose flag parameters are both 0-or-1 emits one arc whose boolean
flags are true exactly on nonzero values, and moves the position to the
group's endpoint (absolute for A, relative for a); a group with an
uninterpretable flag is skipped without touching the position, and parsing
resumes at the next 7-parameter group. -/
theorem c6_arc_parameter_groups :
    (∀ (uw uh x y : ℚ) (ps : List ℚ), ps.length < 7 →
      arcGroupsA uw uh x y ps = ([], x, y) ∧ arcGroupsRel uw uh x y ps = ([], x, y)) ∧
    (∀ (uw uh x y p0 p1 p2 p3 p4 p5 p6 : ℚ) (rest : List ℚ),
      (p3 = 0 ∨ p3 = 1) ∧ (p4 = 0 ∨ p4 = 1) →
      arcGroupsA uw uh x y (p0 :: p1 :: p2 :: p3 :: p4 :: p5 :: p6 :: rest) =
        (⟨x, y, p0 * uw, p1 * uh, p2, decide (p3 ≠ 0), decide (p4 ≠ 0), p5 * uw, p6 * uh⟩ ::
           (arcGroupsA uw uh (p5 * uw) (p6 * uh) rest).1,
         (arcGroupsA uw uh (p5 * uw) (p6 * uh) rest).2)) ∧
    (∀ (uw uh x y p0 p1 p2 p3 p4 p5 p6 : ℚ) (rest : List ℚ),
      ¬ ((p3 = 0 ∨ p3 = 1) ∧ (p4 = 0 ∨ p4 = 1)) →
      arcGroupsA uw uh x y (p0 :: p1 :: p2 :: p3 :: p4 :: p5 :: p6 :: rest) =
        arcGroupsA uw uh x y rest) ∧
    (∀ (uw uh x y p0 p1 p2 p3 p4 p5 p6 : ℚ) (rest : List ℚ),
      (p3 = 0 ∨ p3 = 1) ∧ (p4 = 0 ∨ p4 = 1) →
      arcGroupsRel uw uh x y (p0 :: p1 :: p2 :: p3 :: p4 :: p5 :: p6 :: rest) =
        (⟨x, y, p0 * uw, p1 * uh, p2, decide (p3 ≠ 0), decide (p4 ≠ 0),
            x + p5 * uw, y + p6 * uh⟩ ::
           (arcGroupsRel uw uh (x + p5 * uw) (y + p6 * uh) rest).1,
         (arcGroupsRel uw uh (x + p5 * uw) (y + p6 * uh) rest).2)) ∧
    (∀ (uw uh x y p0 p1 p2 p3 p4 p5 p6 : ℚ) (rest : List ℚ),
      ¬ ((p3 = 0 ∨ p3 = 1) ∧ (p4 = 0 ∨ p4 = 1)) →
      arcGroupsRel uw uh x y (p0 :: p1 :: p2 :: p3 :: p4 :: p5 :: p6 :: rest) =
        arcGroupsRel uw uh x y rest) := by
  refine ⟨?_, ?_, ?_, ?_, ?_⟩
  · intro uw uh x y ps h
    rcases ps with _ | ⟨p0, _ | ⟨p1, _ | ⟨p2, _ | ⟨p3, _ | ⟨p4, _ | ⟨p5, _ | ⟨p6, rest⟩⟩⟩⟩⟩⟩⟩
    · exact ⟨rfl, rfl⟩
    · exact ⟨rfl, rfl⟩
    · exact ⟨rfl, rfl⟩
    · exact ⟨rfl, rfl⟩
    · exact ⟨rfl, rfl⟩
    · exact ⟨rfl, rfl⟩
    · exact ⟨rfl, rfl⟩
    · simp only [List.length_cons] at h
      omega
  · intro uw uh x y p0 p1 p2 p3 p4 p5 p6 rest h
    rw [arcGroupsA, if_neg]
    rintro (⟨h3a, h3b⟩ | ⟨h4a, h4b⟩)
    · rcases h.1 with h0 | h1
      · exact h3a h0
      · exact h3b h1
    · rcases h.2 with h0 | h1
      · exact h4a h0
      · exact h4b h1
  · intro uw uh x y p0 p1 p2 p3 p4 p5 p6 rest h
    rw [arcGroupsA, if_pos]
    by_cases h3 : p3 = 0 ∨ p3 = 1
    · right
      constructor <;> intro h4 <;> exact h (⟨h3, by simp [h4]⟩)
    · left
      push_neg at h3
      exact h3
  · intro uw uh x y p0 p1 p2 p3 p4 p5 p6 rest h
    rw [arcGroupsRel, if_neg]
    rintro (⟨h3a, h3b⟩ | ⟨h4a, h4b⟩)
    · rcases h.1 with h0 | h1
      · exact h3a h0
      · exact h3b h1
    · rcases h.2 with h0 | h1
      · exact h4a h0
      · exact h4b h1
  · intro uw uh x y p0 p1 p2 p3 p4 p5 p6 rest h
    rw [arcGroupsRel, if_pos]
    by_cases h3 : p3 = 0 ∨ p3 = 1
    · right
      constructor <;> intro h4 <;> exact h (⟨h3, by simp [h4]⟩)
    · left
      push_neg at h3
      exact h3

theorem c6_witness :
    ([1, 2, 3] : List ℚ).length < 7 ∧
    (arcGroupsA 1 1 0 0 [1, 2, 3] = ([], 0, 0) ∧ arcGroupsRel 1 1 0 0 [1, 2, 3] = ([], 0, 0)) ∧
    (((1 : ℚ) = 0 ∨ (1 : ℚ) = 1) ∧ ((0 : ℚ) = 0 ∨ (0 : ℚ) = 1)) ∧
    arcGroupsA 1 1 0 0 [5, 6, 7, 1, 0, 8, 9] =
      (⟨0, 0, 5 * 1, 6 * 1, 7, decide ((1 : ℚ) ≠ 0), decide ((0 : ℚ) ≠ 0), 8 * 1, 9 * 1⟩ ::
         (arcGroupsA 1 1 (8 * 1) (9 * 1) []).1, (arcGroupsA 1 1 (8 * 1) (9 * 1) []).2) ∧
    ¬ (((2 : ℚ) = 0 ∨ (2 : ℚ) = 1) ∧ ((0 : ℚ) = 0 ∨ (0 : ℚ) = 1)) ∧
    arcGroupsA 1 1 0 0 [5, 6, 7, 2, 0, 8, 9] = arcGroupsA 1 1 0 0 [] ∧
    arcGroupsRel 1 1 10 20 [5, 6, 7, 1, 0, 8, 9] =
      (⟨10, 20, 5 * 1, 6 * 1, 7, decide ((1 : ℚ) ≠ 0), decide ((0 : ℚ) ≠ 0),
          10 + 8 * 1, 20 + 9 * 1⟩ ::
         (arcGroupsRel 1 1 (10 + 8 * 1) (20 + 9 * 1) []).1,
       (arcGroupsRel 1 1 (10 + 8 * 1) (20 + 9 * 1) []).2) ∧
    arcGroupsRel 1 1 10 20 [5, 6, 7, 2, 0, 8, 9] = arcGroupsRel 1 1 10 20 [] :=
  ⟨by with_unfolding_all decide,
   c6_arc_parameter_groups.1 1 1 0 0 [1, 2, 3] (by with_unfolding_all decide),
   by with_unfolding_all decide,
   c6_arc_parameter_groups.2.1 1 1 0 0 5 6 7 1 0 8 9 [] (by with_unfolding_all decide),
   by with_unfolding_all decide,
   c6_arc_parameter_groups.2.2.1 1 1 0 0 5 6 7 2 0 8 9 [] (by with_unfolding_all decide),
   c6_arc_parameter_groups.2.2.2.1 1 1 10 20 5 6 7 1 0 8 9 [] (by with_unfolding_all decide),
   c6_arc_parameter_groups.2.2.2.2 1 1 10 20 5 6 7 2 0 8 9 [] (by with_unfolding_all decide)⟩

/-- A text handler that emits nothing (text rendering is external to the
core; see `parse`). -/
def nullText : PState → Element → Option (List Cmd × PState) :=
  fun st _ => some ([], st)

/-- A line element from (0,0) to (1,0). -/
def lineElt1 : Element := Element.mk (svgNS ++ "line") [("x2", "1")] [] ""

/-- A line element from (2,0) to (3,0). -/
def lineElt2 : Element := Element.mk (svgNS ++ "line") [("x1", "2"), ("x2", "3")] [] ""

/-- A switch element, with no required features, holding the two lines. -/
def switchElt : Element := Element.mk (svgNS ++ "switch") [] [lineElt1, lineElt2] ""

/-- Claim C7 (counterexample): an eligible switch with two line children
emits the commands of BOTH children (travel+extrude of the first line
followed by travel+extrude of the second), not only its first
structurally-eligible branch's commands. -/
theorem c7_counterexample :
    parse 3 opsW nullText stOne switchElt =
      some ([Cmd.travel 0 0, Cmd.extrude 1 0 (7 / 20), Cmd.travel 2 0, Cmd.extrude 3 0 (7 / 20)],
        stOne) ∧
    parse 3 opsW nullText stOne lineElt1 =
      some ([Cmd.travel 0 0, Cmd.extrude 1 0 (7 / 20)], stOne) ∧
    parse 3 opsW nullText stOne switchElt ≠ parse 3 opsW nullText stOne lineElt1 := by
  refine ⟨?_, ?_, ?_⟩ <;> with_unfolding_all decide

/-- Claim C7 (amended): a switch whose required features are all in the
allow-list emits the concatenated commands of ALL its children, in document
order; if some required feature is not in the allow-list it emits nothing.
(The allow-list itself contains, besides the empty string and eight feature
URLs, one accidental concatenation of seven further URLs, reproduced from
the source's missing commas.) -/
theorem c7_switch_semantics :
    ∀ (parseF : PState → Element → Option (List Cmd × PState)) (st : PState) (e : Element),
      ((requiredFeaturesList e).all (fun f => supportedFeatures.contains f) = true →
        parse_switch parseF st e = foldChildren parseF st e.children) ∧
      ((requiredFeaturesList e).all (fun f => supportedFeatures.contains f) = false →
        parse_switch parseF st e = some ([], st)) := by
  intro parseF st e
  refine ⟨fun h => ?_, fun h => ?_⟩
  · rw [parse_switch, if_pos h]
  · have hn : ¬ ((requiredFeaturesList e).all (fun f => supportedFeatures.contains f) = true) := by
      rw [h]
      decide
    rw [parse_switch, if_neg hn]

theorem c7_witness :
    (requiredFeaturesList switchElt).all (fun f => supportedFeatures.contains f) = true ∧
    parse_switch (fun st1 c => parse 2 opsW nullText st1 c) stOne switchElt =
      foldChildren (fun st1 c => parse 2 opsW nullText st1 c) stOne switchElt.children :=
  ⟨by with_unfolding_all decide,
   (c7_switch_semantics (fun st1 c => parse 2 opsW nullText st1 c) stOne switchElt).1
     (by with_unfolding_all decide)⟩
